import Mathlib

/-!
Verification development for the pdf-extract document extraction pipeline.

The TypeScript source is shallowly embedded: JavaScript numbers are modelled
as exact rationals extended with NaN and signed infinities, JavaScript regular
expressions are modelled by a small backtracking matcher with the ECMAScript
priority order (leftmost position first, alternation left first, greedy
quantifiers longest first, lazy quantifiers shortest first, a zero-minimum
quantifier iteration must consume at least one character), and the external
PDF/OCR libraries are modelled as oracles supplying either a text or an error.
-/

namespace PdfExtract

/-! ## JavaScript primitives -/

/-- A JavaScript number: NaN, signed infinity, or a finite value (modelled as
an exact rational; binary rounding of decimal literals is not modelled). -/
inductive JSNum where
  | nan : JSNum
  | posInf : JSNum
  | negInf : JSNum
  | num : ℚ → JSNum
deriving DecidableEq

/-- JavaScript strict-greater comparison: false whenever NaN is involved. -/
def JSNum.gt : JSNum → JSNum → Bool
  | .nan, _ => false
  | _, .nan => false
  | .posInf, .posInf => false
  | .posInf, _ => true
  | .negInf, _ => false
  | .num _, .posInf => false
  | .num _, .negInf => true
  | .num a, .num b => b < a

/-- JavaScript truthiness of a number (false for 0 and NaN). -/
def JSNum.truthy : JSNum → Bool
  | .nan => false
  | .num a => a ≠ 0
  | _ => true

/-- The ECMAScript WhiteSpace / LineTerminator characters (ASCII range plus
no-break space, as used by trim, parseFloat and the s-hortcut class). -/
def isJsWs (c : Char) : Bool :=
  c = ' ' || c = '\t' || c = '\n' || c = '\r' || c = '\x0b' || c = '\x0c' || c = '\u00A0'

/-- String.prototype.trim. -/
def jsTrim (s : String) : String :=
  String.mk (((s.data.dropWhile isJsWs).reverse.dropWhile isJsWs).reverse)

/-- Truthiness of a JavaScript string. -/
def jsStrTruthy (s : String) : Bool := s ≠ ""

/-- ASCII lower-casing, as the source only handles English text. -/
def jsToLower (s : String) : String := String.mk (s.data.map Char.toLower)

/-- JavaScript string-or-default idiom (name or the Unknown-file fallback). -/
def jsOr (s dflt : String) : String := if s = "" then dflt else s

/-- String.prototype.endsWith, via reversed character lists. -/
def jsEndsWith (s suffix : String) : Bool :=
  suffix.data.reverse.isPrefixOf s.data.reverse

/-- String.prototype.startsWith. -/
def jsStartsWith (s p : String) : Bool := p.data.isPrefixOf s.data

/-- String.prototype.split on the newline separator. -/
def splitNl : List Char → List (List Char)
  | [] => [[]]
  | c :: rest =>
    match splitNl rest with
    | [] => [[]]
    | h :: t => if c = '\n' then [] :: h :: t else (c :: h) :: t

/-- Digit chars. -/
def isDigitChar (c : Char) : Bool := '0' ≤ c && c ≤ '9'

def digitVal (c : Char) : ℕ := c.toNat - '0'.toNat

/-- Value of a digit list read left to right. -/
def digitsVal (l : List Char) : ℕ := l.foldl (fun a c => 10 * a + digitVal c) 0

/-- Exact value of a decimal literal: sign, integer digits, fraction digits
and a decimal exponent, assembled with a single normalising division so the
kernel can evaluate it. -/
def decValue (neg : Bool) (intD fracD : List Char) (e : Int) : ℚ :=
  let mantN : Nat := digitsVal intD * 10 ^ fracD.length + digitsVal fracD
  let signed : Int := if neg then -(mantN : Int) else (mantN : Int)
  if 0 ≤ e then mkRat (signed * (10 ^ e.toNat : Nat)) (10 ^ fracD.length)
  else mkRat signed (10 ^ fracD.length * 10 ^ (-e).toNat)

/-- parseFloat body after the sign: longest prefix that is a
StrUnsignedDecimalLiteral, returned as (integer digits, fraction digits,
exponent); Infinity is signalled separately. -/
def parseUnsigned (l : List Char) : Option (Sum Unit (List Char × List Char × Int)) :=
  if l.take 8 = "Infinity".data then some (Sum.inl ()) else
  let intPart := l.takeWhile isDigitChar
  let rest := l.drop intPart.length
  let (fracPart, rest2) :=
    match rest with
    | '.' :: r => (r.takeWhile isDigitChar, r.drop (r.takeWhile isDigitChar).length)
    | _ => ([], rest)
  if intPart.isEmpty && fracPart.isEmpty then none
  else
    let e : Int :=
      match rest2 with
      | e :: r =>
        if e = 'e' || e = 'E' then
          let (sgn, r2) :=
            match r with
            | '-' :: r2 => ((-1 : Int), r2)
            | '+' :: r2 => ((1 : Int), r2)
            | _ => ((1 : Int), r)
          let expDigits := r2.takeWhile isDigitChar
          if expDigits.isEmpty then 0
          else sgn * (digitsVal expDigits : Int)
        else 0
      | [] => 0
    some (Sum.inr (intPart, fracPart, e))

/-- JavaScript parseFloat: skip leading whitespace, optional sign, then the
longest prefix forming a decimal literal or Infinity; NaN when there is none. -/
def jsParseFloat (s : String) : JSNum :=
  let l := s.data.dropWhile isJsWs
  let (neg, l2) :=
    match l with
    | [] => (false, ([] : List Char))
    | c :: r => if c = '-' then (true, r) else if c = '+' then (false, r) else (false, c :: r)
  match parseUnsigned l2 with
  | none => .nan
  | some (Sum.inl _) => if neg then .negInf else .posInf
  | some (Sum.inr (intD, fracD, e)) => .num (decValue neg intD fracD e)

/-- String.prototype.replace with the global comma pattern, as used to strip
thousands separators. -/
def stripCommas (s : String) : String := String.mk (s.data.filter (fun c => c ≠ ','))

/-! ## Regular expressions

Abstract syntax of the ECMAScript regular expressions appearing in the source.
Character classes are carried as decidable predicates; the i-flag is compiled
into the predicates and literal alternations when a pattern is transcribed. -/

inductive Re : Type where
  /-- empty pattern -/
  | eps : Re
  /-- one character from a class -/
  | cls : (Char → Bool) → Re
  /-- concatenation -/
  | seq : Re → Re → Re
  /-- alternation, left preferred -/
  | alt : Re → Re → Re
  /-- repetition: lo required iterations then up to extra optional ones
  (none = unbounded); lz = true means lazy -/
  | rep : Re → Nat → Option Nat → Bool → Re
  /-- numbered capture group -/
  | grp : Nat → Re → Re
  /-- assertion circumflex; the flag is the m-flag of the pattern -/
  | bol : Bool → Re
  /-- assertion dollar; the flag is the m-flag of the pattern -/
  | eol : Bool → Re

namespace Re

/-- Structural size used for termination of the matcher; counts repetition
bounds so that unrolling a bounded repetition decreases. -/
def size : Re → Nat
  | .eps => 1
  | .cls _ => 1
  | .bol _ => 1
  | .eol _ => 1
  | .seq a b => a.size + b.size + 1
  | .alt a b => a.size + b.size + 1
  | .rep r lo hi _ => r.size + lo + hi.getD 0 + 1
  | .grp _ r => r.size + 1

end Re

/-- Capture environment: group index to captured characters, most recent
assignment first. -/
abbrev Caps := List (Nat × List Char)

/-- All ways the pattern can match a prefix of the remaining input, in
ECMAScript backtracking priority order. A result is (consumed count, new
previous character, captures). The previous character is carried for the
line anchors. Recursion is structural on a fuel that every recursive call
decrements, so the kernel can evaluate matches; reFuel below always
suffices, since each call strictly decreases the product measure
pattern-size times (input length plus two). A zero-minimum quantifier
iteration must consume at least one character (the ECMAScript
empty-iteration rule). -/
def reMatch : Nat → Re → Option Char → List Char → Caps →
    List (Nat × Option Char × Caps)
  | 0, _, _, _, _ => []
  | Nat.succ fuel, re, prev, s, caps =>
    match re with
    | .eps => [(0, prev, caps)]
    | .cls p =>
      match s with
      | [] => []
      | c :: _ => if p c then [(1, some c, caps)] else []
    | .bol m =>
      match prev with
      | none => [(0, prev, caps)]
      | some c => if m && (c = '\n' || c = '\r') then [(0, prev, caps)] else []
    | .eol m =>
      match s with
      | [] => [(0, prev, caps)]
      | c :: _ => if m && (c = '\n' || c = '\r') then [(0, prev, caps)] else []
    | .seq a b =>
      (reMatch fuel a prev s caps).flatMap (fun ra =>
        (reMatch fuel b ra.2.1 (s.drop ra.1) ra.2.2).map (fun rb =>
          (ra.1 + rb.1, rb.2.1, rb.2.2)))
    | .alt a b => reMatch fuel a prev s caps ++ reMatch fuel b prev s caps
    | .grp i r =>
      (reMatch fuel r prev s caps).map
        (fun ra => (ra.1, ra.2.1, (i, s.take ra.1) :: ra.2.2))
    | .rep r lo extra lz =>
      match lo, extra with
      | Nat.succ lo', e =>
        (reMatch fuel r prev s caps).flatMap (fun ra =>
          (reMatch fuel (.rep r lo' e lz) ra.2.1 (s.drop ra.1) ra.2.2).map
            (fun rb => (ra.1 + rb.1, rb.2.1, rb.2.2)))
      | 0, some 0 => [(0, prev, caps)]
      | 0, some (Nat.succ e') =>
        let iter :=
          (reMatch fuel r prev s caps).flatMap (fun ra =>
            if ra.1 = 0 then []
            else
              (reMatch fuel (.rep r 0 (some e') lz) ra.2.1 (s.drop ra.1) ra.2.2).map
                (fun rb => (ra.1 + rb.1, rb.2.1, rb.2.2)))
        if lz then (0, prev, caps) :: iter else iter ++ [(0, prev, caps)]
      | 0, none =>
        let iter :=
          (reMatch fuel r prev s caps).flatMap (fun ra =>
            if ra.1 = 0 then []
            else
              (reMatch fuel (.rep r 0 none lz) ra.2.1 (s.drop ra.1) ra.2.2).map
                (fun rb => (ra.1 + rb.1, rb.2.1, rb.2.2)))
        if lz then (0, prev, caps) :: iter else iter ++ [(0, prev, caps)]

/-- Fuel sufficient for any match of re on s (and on any suffix of s). -/
def reFuel (re : Re) (s : List Char) : Nat := re.size * (s.length + 2) + 1

/-- Every character class occurring in the pattern implies P. -/
def Re.clsSub (P : Char → Bool) : Re → Prop
  | .eps => True
  | .cls q => ∀ c, q c = true → P c = true
  | .seq a b => a.clsSub P ∧ b.clsSub P
  | .alt a b => a.clsSub P ∧ b.clsSub P
  | .rep r _ _ _ => r.clsSub P
  | .grp _ r => r.clsSub P
  | .bol _ => True
  | .eol _ => True

/-- Every capture group numbered g in the pattern has only classes below P. -/
def Re.grpSub (g : Nat) (P : Char → Bool) : Re → Prop
  | .eps => True
  | .cls _ => True
  | .seq a b => a.grpSub g P ∧ b.grpSub g P
  | .alt a b => a.grpSub g P ∧ b.grpSub g P
  | .rep r _ _ _ => r.grpSub g P
  | .grp i r => (i = g → r.clsSub P) ∧ r.grpSub g P
  | .bol _ => True
  | .eol _ => True

/-- All characters recorded for group g in the environment satisfy P. -/
def capsOK (g : Nat) (P : Char → Bool) (caps : Caps) : Prop :=
  ∀ l, caps.lookup g = some l → ∀ c ∈ l, P c = true

/-- The character class of the amount captures: digits, commas and dots. -/
def amtChar (c : Char) : Bool := isDigitChar c || c = ',' || c = '.'

/-- Leftmost match found by scanning start positions left to right. -/
structure SearchHit where
  /-- input suffix beginning at the match position -/
  suffix : List Char
  /-- characters consumed by the match -/
  consumed : Nat
  /-- previous-character state after the match, for continuing a global scan -/
  prevAfter : Option Char
  /-- captures of the match -/
  caps : Caps

/-- Search for the leftmost match in the spirit of String.prototype.match on a
non-global pattern: try each start position left to right and take the first
(highest-priority) result there. -/
def reSearch (fuel : Nat) (re : Re) (prev : Option Char) (s : List Char) :
    Option SearchHit :=
  match (reMatch fuel re prev s []).head? with
  | some r => some ⟨s, r.1, r.2.1, r.2.2⟩
  | none =>
    match s with
    | [] => none
    | c :: rest => reSearch fuel re (some c) rest

/-- match on a whole string: Option of the capture environment of the first
match (none models a null match result). -/
def jsMatchCaps (re : Re) (text : String) : Option Caps :=
  (reSearch (reFuel re text.data) re none text.data).map (fun r => r.caps)

/-- RegExp.prototype.test / the truthiness of a non-global match result. -/
def jsTest (re : Re) (text : String) : Bool := (jsMatchCaps re text).isSome

/-- Group i of a match result, undefined when the group did not participate. -/
def capGet (caps : Caps) (i : Nat) : Option String :=
  (caps.lookup i).map String.mk

/-- The guard idiom (match and match indexed 1): the string captured by group 1
of the first match, if the pattern matched and the capture is truthy. -/
def jsMatchCap1 (re : Re) (text : String) : Option String :=
  match jsMatchCaps re text with
  | none => none
  | some caps =>
    match capGet caps 1 with
    | none => none
    | some v => if v = "" then none else some v

/-- Successive matches of a global pattern, for String.prototype.match with the
g-flag: list of full match texts; an empty match advances one character. -/
def globalLoop (fuel : Nat) (re : Re) (prev : Option Char) (s : List Char) :
    List String :=
  match fuel with
  | 0 => []
  | Nat.succ fuel' =>
    match reSearch (reFuel re s) re prev s with
    | none => []
    | some hit =>
      let matched := String.mk (hit.suffix.take hit.consumed)
      if hit.consumed = 0 then
        match hit.suffix with
        | [] => [matched]
        | c :: rest => matched :: globalLoop fuel' re (some c) rest
      else
        matched :: globalLoop fuel' re hit.prevAfter (hit.suffix.drop hit.consumed)

/-- String.prototype.match with the g-flag: null when there is no match at
all, otherwise the list of full match texts. -/
def jsMatchGlobal (re : Re) (text : String) : Option (List String) :=
  match globalLoop (text.length + 1) re none text.data with
  | [] => none
  | l => some l

/-! ## Pattern combinators

Small helpers used to transcribe the source's regular expression literals.
The i-flag is compiled in: chri and liti compare case-insensitively, and the
per-pattern character class predicates are written case-closed when the
source pattern carries the flag. -/

namespace Pat

/-- a literal character -/
def chr (c : Char) : Re := .cls (fun x => x = c)

/-- a literal character under the i-flag -/
def chri (c : Char) : Re := .cls (fun x => x.toLower = c.toLower)

/-- sequence of patterns -/
def cat (l : List Re) : Re := l.foldr .seq .eps

/-- a case-sensitive literal -/
def lit (s : String) : Re := cat (s.data.map chr)

/-- a case-insensitive literal -/
def liti (s : String) : Re := cat (s.data.map chri)

/-- ordered alternation of a nonempty list (an empty list never matches) -/
def alts (l : List Re) : Re :=
  match l with
  | [] => .cls (fun _ => false)
  | [r] => r
  | r :: rest => .alt r (alts rest)

/-- greedy star -/
def star (r : Re) : Re := .rep r 0 none false

/-- greedy plus -/
def plus (r : Re) : Re := .rep r 1 none false

/-- greedy option mark -/
def opt (r : Re) : Re := .rep r 0 (some 1) false

/-- greedy counted range, lo and hi as in the braces syntax -/
def repRange (r : Re) (lo hi : Nat) : Re := .rep r lo (some (hi - lo)) false

/-- greedy at-least-lo repetition -/
def repMin (r : Re) (lo : Nat) : Re := .rep r lo none false

/-- exactly-n repetition -/
def repExact (r : Re) (n : Nat) : Re := .rep r n (some 0) false

/-- lazy plus -/
def lazyPlus (r : Re) : Re := .rep r 1 none true

/-- lazy at-least-lo repetition -/
def lazyRepMin (r : Re) (lo : Nat) : Re := .rep r lo none true

/-- the s-hortcut digit class -/
def digit : Re := .cls isDigitChar

/-- the s-hortcut whitespace class -/
def wsp : Re := .cls isJsWs

/-- the w-shortcut class: ASCII letters, digits and underscore -/
def wordc : Re := .cls (fun c => c.isAlpha || isDigitChar c || c = '_')

/-- the dot: any character but a line terminator -/
def dot : Re := .cls (fun c => !(c = '\n' || c = '\r' || c = '\u2028' || c = '\u2029'))

/-- class of ASCII letters (a case-closed A-Z under the i-flag) -/
def alphaChar : Re := .cls Char.isAlpha

/-- class of ASCII upper-case letters (A-Z without the i-flag) -/
def upperChar : Re := .cls (fun c => 'A' ≤ c && c ≤ 'Z')

/-- the class A-Z 0-9 hyphen underscore under the i-flag -/
def invChar : Re := .cls (fun c => c.isAlpha || isDigitChar c || c = '-' || c = '_')

/-- the class A-Z 0-9 hyphen underscore without the i-flag -/
def invCharCS : Re :=
  .cls (fun c => ('A' ≤ c && c ≤ 'Z') || isDigitChar c || c = '-' || c = '_')

/-- the vendor-name class: letters, whitespace and light punctuation -/
def vendorChar : Re :=
  .cls (fun c => c.isAlpha || isJsWs c || c = '&' || c = ',' || c = '.' || c = '-' ||
    c = '\'' || c = '(' || c = ')')

/-- the digits-and-commas class -/
def digitComma : Re := .cls (fun c => isDigitChar c || c = ',')

/-- the slash-or-hyphen date separator class -/
def dateSep : Re := .cls (fun c => c = '/' || c = '-')

/-- the colon-or-whitespace separator class -/
def colonWs : Re := .cls (fun c => c = ':' || isJsWs c)

/-- the tail of an amount: digits-and-commas, optional dot, digits -/
def amt : Re := cat [plus digitComma, opt (chr '.'), star digit]

/-- an amount with exactly two decimals -/
def cents : Re := cat [plus digitComma, chr '.', repExact digit 2]

/-- a quantity: digits with up to two decimals -/
def qtyNum : Re := cat [plus digit, opt (cat [chr '.', repRange digit 1 2])]

/-- day-month-year style numeric date -/
def dmy : Re := cat [repRange digit 1 2, dateSep, repRange digit 1 2, dateSep,
  repExact digit 4]

/-- year-first numeric date -/
def ymd : Re := cat [repExact digit 4, dateSep, repRange digit 1 2, dateSep,
  repRange digit 1 2]

/-- written-month date: word, day, optional comma, year -/
def wordDate : Re := cat [repRange wordc 3 9, plus wsp, repRange digit 1 2,
  opt (chr ','), plus wsp, repExact digit 4]

/-- the optional number-sign-no tag after invoice-like keywords -/
def numTag : Re := alts [liti "number", lit "#", cat [liti "no", opt (chr '.')]]

end Pat

/-! ## Shared result records -/

/-- A parsed line item (src/types/extraction.ts): description plus optional
numeric fields; absent fields model absent object properties. -/
structure LineItem where
  description : String
  quantity : Option JSNum := none
  unitPrice : Option JSNum := none
  amount : Option JSNum := none
deriving DecidableEq

/-- The per-file extraction record (src/types/extraction.ts with the fields the
routes assign); a field holds none when the property was never assigned. -/
structure ExtractionResult where
  filename : String
  invoiceNumber : Option String := none
  date : Option String := none
  vendor : Option String := none
  subtotal : Option String := none
  tax : Option String := none
  taxRate : Option String := none
  total : Option String := none
  lineItems : Option (List LineItem) := none
  notes : Option String := none
  error : Option String := none
deriving DecidableEq

/-! ## The basic extract route (src/app/api/extract/route.ts) -/

namespace ExtractRoute
open Pat

/-- The invoicePatterns list of extractInvoiceData. -/
def invoicePatterns : List Re := [
  cat [alts [cat [liti "invoice", star wsp, opt numTag],
             cat [liti "inv", star wsp, opt numTag],
             cat [liti "bill", star wsp, opt numTag]],
       star wsp, opt (chr ':'), star wsp, .grp 1 (plus invChar)],
  cat [alts [.bol true, wsp],
       .grp 1 (cat [repRange upperChar 2 3, opt (chr '-'), repMin digit 4])],
  cat [chr '#', star wsp, .grp 1 (repMin invChar 3)]]

/-- The datePatterns list of extractInvoiceData. -/
def datePatterns : List Re := [
  cat [alts [liti "date", cat [liti "invoice", star wsp, liti "date"], liti "issued",
             cat [liti "bill", star wsp, liti "date"]],
       star wsp, opt (chr ':'), star wsp, .grp 1 dmy],
  cat [alts [liti "date", cat [liti "invoice", star wsp, liti "date"], liti "issued",
             cat [liti "bill", star wsp, liti "date"]],
       star wsp, opt (chr ':'), star wsp, .grp 1 ymd],
  cat [alts [liti "date", cat [liti "invoice", star wsp, liti "date"], liti "issued",
             cat [liti "bill", star wsp, liti "date"]],
       star wsp, opt (chr ':'), star wsp, .grp 1 wordDate],
  .grp 1 dmy]

/-- The vendorPatterns list of extractInvoiceData. -/
def vendorPatterns : List Re := [
  cat [alts [liti "from", liti "vendor", liti "company",
             cat [liti "bill", star wsp, liti "to"],
             cat [liti "sold", star wsp, liti "by"]],
       star wsp, opt (chr ':'), star wsp, .grp 1 (lazyPlus vendorChar),
       alts [chr '\n', .eol false, repMin wsp 2]],
  cat [.bol true, .grp 1 (repMin vendorChar 3), star wsp,
       alts [chr '\n', chr '\r']],
  cat [alts [.bol false, chr '\n'], star wsp,
       .grp 1 (cat [alphaChar, lazyRepMin vendorChar 5]), star wsp,
       alts [chr '\n', liti "Address", liti "Phone", liti "Email", liti "Tax"]]]

/-- The totalPatterns list of extractInvoiceData. -/
def totalPatterns : List Re := [
  cat [alts [liti "total", cat [liti "grand", star wsp, liti "total"],
             cat [liti "amount", star wsp, liti "due"],
             cat [liti "balance", star wsp, liti "due"],
             cat [liti "final", star wsp, liti "amount"]],
       star wsp, opt (chr ':'), star wsp, opt (chr '$'), star wsp, .grp 1 amt],
  cat [alts [liti "total", cat [liti "grand", star wsp, liti "total"],
             cat [liti "amount", star wsp, liti "due"],
             cat [liti "balance", star wsp, liti "due"]],
       star wsp, opt (chr '$'), star wsp, .grp 1 amt],
  cat [chr '$', star wsp, .grp 1 cents, alts [wsp, .eol false]],
  cat [alts [.bol true, wsp], .grp 1 cents, star wsp, .eol true, .eol true]]

/-- First pattern of a list whose group 1 capture is truthy, as in the
for-loops of extractInvoiceData: the captured text, trimmed where the code
trims it. -/
def firstCap1 (pats : List Re) (text : String) : Option String :=
  match pats with
  | [] => none
  | p :: rest =>
    match jsMatchCap1 p text with
    | some v => some v
    | none => firstCap1 rest text

/-- The trim-then-strip-trailing-colon-newline cleanup of the vendor loops. -/
def cleanVendor (v : String) : String :=
  String.mk (((jsTrim v).data.reverse.dropWhile
    (fun c => c = ':' || c = '\n' || c = '\r')).reverse)

/-- The vendor for-loop: a pattern whose cleaned capture fails the length
window does not break the loop, the next pattern is tried. -/
def vendorLoop (pats : List Re) (text : String) (lowLen highLen : Nat) :
    Option String :=
  match pats with
  | [] => none
  | p :: rest =>
    match jsMatchCap1 p text with
    | none => vendorLoop rest text lowLen highLen
    | some v =>
      let cleaned := cleanVendor v
      if cleaned.length > lowLen && cleaned.length < highLen then some cleaned
      else vendorLoop rest text lowLen highLen

/-- The amount for-loop: comma-strip the capture; a non-positive parse does
not break the loop, the next pattern is tried. -/
def amountLoop (pats : List Re) (text : String) : Option String :=
  match pats with
  | [] => none
  | p :: rest =>
    match jsMatchCap1 p text with
    | none => amountLoop rest text
    | some v =>
      let amount := stripCommas v
      if (jsParseFloat amount).gt (.num 0) then some amount
      else amountLoop rest text

/-- extractInvoiceData of src/app/api/extract/route.ts: ordered pattern lists
per field, first pattern with a truthy capture passing the field guard wins. -/
def extractInvoiceData (text filename : String) : ExtractionResult :=
  { filename := filename,
    invoiceNumber := (firstCap1 invoicePatterns text).map jsTrim,
    date := (firstCap1 datePatterns text).map jsTrim,
    vendor := vendorLoop vendorPatterns text 2 100,
    total := amountLoop totalPatterns text }

/-- An uploaded file for the basic route: request metadata plus the oracle for
the external extractTextFromPDF call on the file's bytes. -/
structure PdfFile where
  name : String
  type : String
  size : Nat
  content : Except String String

/-- Per-file processing of the basic POST handler: media-type gate, size gate,
then text extraction and field extraction; failures become per-file errors. -/
def processFile (f : PdfFile) : ExtractionResult :=
  let fname := jsOr f.name "Unknown file"
  if f.type ≠ "application/pdf" && !(jsEndsWith (jsToLower f.name) ".pdf") then
    { filename := fname, error := some ("Error: " ++ fname ++ " is not a PDF file") }
  else if f.size > 10 * 1024 * 1024 then
    { filename := fname,
      error := some ("Error: " ++ fname ++ " is too large (max 10MB per file)") }
  else
    match f.content with
    | .ok text => extractInvoiceData text fname
    | .error e =>
      { filename := fname,
        error := some ("Error processing " ++ fname ++ ": " ++ e) }

/-- Batch metadata of the basic POST response. -/
structure BatchMeta where
  totalFiles : Nat
  processedFiles : Nat
  successfulExtractions : Nat
deriving DecidableEq

/-- The sequential push loop over files. -/
def pushLoop (files : List PdfFile) (acc : List ExtractionResult) :
    List ExtractionResult :=
  match files with
  | [] => acc
  | f :: rest => pushLoop rest (acc ++ [processFile f])

/-- The basic POST handler after form decoding: batch gates, per-file loop,
response assembly with the succeeded count. -/
def extractPOST (files : List PdfFile) :
    Except String (List ExtractionResult × BatchMeta) :=
  if files.length = 0 then .error "No files provided"
  else if files.length > 10 then .error "Maximum 10 files allowed"
  else
    let extractions := pushLoop files []
    .ok (extractions,
      { totalFiles := files.length,
        processedFiles := files.length,
        successfulExtractions := (extractions.filter
          (fun e => e.error = none)).length })

end ExtractRoute

/-! ## The OCR route (src/app/api/extract-ocr/route.ts) -/

namespace OcrRoute
open Pat

/-- The three tablePatterns row shapes of extractLineItems, in source order. -/
def tablePatterns : List Re := [
  cat [.bol false, .grp 1 (repRange dot 10 50), plus wsp, .grp 2 qtyNum, plus wsp,
       opt (chr '$'), .grp 3 amt, plus wsp, opt (chr '$'), .grp 4 amt, .eol false],
  cat [.bol false, .grp 1 (repRange dot 10 80), plus wsp, opt (chr '$'),
       .grp 2 cents, .eol false],
  cat [.bol false, .grp 1 qtyNum, plus wsp, .grp 2 (repRange dot 10 50), plus wsp,
       opt (chr '$'), .grp 3 amt, plus wsp, opt (chr '$'), .grp 4 amt, .eol false]]

/-- The tableHeaders keyword tests of extractLineItems. -/
def tableHeaders : List Re := [
  alts [liti "description", liti "item", liti "service", liti "product"],
  alts [liti "qty", liti "quantity", liti "amount"],
  alts [liti "price", liti "rate", liti "cost"],
  alts [liti "total", liti "subtotal"]]

/-- The table footer stop pattern of extractLineItems. -/
def stopRe : Re :=
  cat [.bol false, .grp 1 (alts [liti "subtotal", liti "tax", liti "total",
    cat [liti "note", opt (chri 's')], liti "payment", liti "due", liti "thank"])]

/-- Number of capture groups of each tablePatterns entry, fixing the length of
the JavaScript match array for the three-way shape dispatch. -/
def patGroups : Re → Nat
  | .eps => 0
  | .cls _ => 0
  | .bol _ => 0
  | .eol _ => 0
  | .seq a b => patGroups a + patGroups b
  | .alt a b => patGroups a + patGroups b
  | .rep r _ _ _ => patGroups r
  | .grp _ r => patGroups r + 1

/-- Build the candidate LineItem from a row match, following the dispatch on
the match-array length (1 + group count). Group 2 of the quantity-first shape
also has five entries, so it reuses the description-first field assignment,
parsing the description text as the quantity. -/
def itemOfMatch (nGroups : Nat) (caps : Caps) : Option LineItem :=
  let m : Nat → String := fun i => (capGet caps i).getD ""
  if nGroups + 1 = 5 then
    some { description := jsTrim (m 1),
           quantity := some (jsParseFloat (m 2)),
           unitPrice := some (jsParseFloat (stripCommas (m 3))),
           amount := some (jsParseFloat (stripCommas (m 4))) }
  else if nGroups + 1 = 3 then
    some { description := jsTrim (m 1),
           amount := some (jsParseFloat (stripCommas (m 2))) }
  else none

/-- One pass of the inner for-loop over tablePatterns: the first pattern that
matches the line yields its candidate item (the loop then breaks whether or
not the item passes the validity guard). -/
def rowMatch (pats : List Re) (line : String) : Option (Option LineItem) :=
  match pats with
  | [] => none
  | p :: rest =>
    match jsMatchCaps p line with
    | some caps => some (itemOfMatch (patGroups p) caps)
    | none => rowMatch rest line

/-- The push guard of extractLineItems: truthy description longer than five
characters and truthy positive amount. -/
def itemValid (it : LineItem) : Bool :=
  jsStrTruthy it.description && it.description.length > 5 &&
    (match it.amount with
     | some a => a.truthy && a.gt (.num 0)
     | none => false)

/-- The line loop of extractLineItems. The 20-item check in the source only
breaks the inner pattern loop, so the outer loop continues scanning lines
regardless of the count; the count is threaded anyway, mirroring the code. -/
def lineLoop (lines : List String) (inSection : Bool) (acc : List LineItem)
    (cnt : Nat) : List LineItem :=
  match lines with
  | [] => acc
  | line :: rest =>
    if !inSection then
      if tableHeaders.any (fun h => jsTest h line) then lineLoop rest true acc cnt
      else lineLoop rest false acc cnt
    else if jsTest stopRe line then acc
    else
      match rowMatch tablePatterns line with
      | some (some it) =>
        if itemValid it then lineLoop rest true (acc ++ [it]) (cnt + 1)
        else lineLoop rest true acc cnt
      | some none => lineLoop rest true acc cnt
      | none => lineLoop rest true acc cnt

/-- extractLineItems of src/app/api/extract-ocr/route.ts. -/
def extractLineItems (text : String) : List LineItem :=
  let lines := ((splitNl text.data).map (fun l => jsTrim (String.mk l))).filter
    (fun l => l.length > 0)
  lineLoop lines false [] 0

/-- The invoicePatterns list of the OCR route's extractInvoiceData. -/
def invoicePatterns : List Re := [
  cat [alts [liti "invoice", liti "inv", liti "bill"], star wsp, opt numTag,
       plus colonWs, .grp 1 (repMin invChar 3)],
  cat [alts [.bol true, wsp],
       .grp 1 (cat [repMin upperChar 2, opt (chr '-'), repMin digit 4])],
  cat [chr '#', star wsp, .grp 1 (repMin invChar 3)],
  cat [liti "invoice", plus colonWs, .grp 1 (repMin invChar 3)]]

/-- The datePatterns list of the OCR route's extractInvoiceData. -/
def datePatterns : List Re := [
  cat [alts [cat [liti "invoice", star wsp, liti "date"], liti "date", liti "issued",
             cat [liti "bill", star wsp, liti "date"]],
       plus colonWs, .grp 1 dmy],
  cat [liti "date", plus colonWs, .grp 1 wordDate],
  .grp 1 dmy]

/-- The vendorPatterns list of the OCR route's extractInvoiceData. -/
def vendorPatterns : List Re := [
  cat [alts [liti "from", liti "vendor", liti "company",
             cat [liti "bill", star wsp, liti "to"],
             cat [liti "sold", star wsp, liti "by"]],
       plus colonWs, .grp 1 (repRange vendorChar 3 60)],
  cat [.bol true, .grp 1 (cat [upperChar, repRange vendorChar 5 50]),
       alts [chr '\n', .eol true]]]

/-- The subtotalPatterns list of the OCR route's extractInvoiceData. -/
def subtotalPatterns : List Re := [
  cat [alts [liti "subtotal", cat [liti "sub", star wsp, liti "total"]],
       plus colonWs, opt (chr '$'), star wsp, .grp 1 amt]]

/-- The taxPatterns list of the OCR route's extractInvoiceData. -/
def taxPatterns : List Re := [
  cat [alts [liti "tax", liti "vat"], plus colonWs, opt (chr '$'), star wsp,
       .grp 1 amt],
  cat [liti "tax", star wsp, liti "rate", plus colonWs,
       .grp 1 (cat [plus digit, opt (cat [chr '.', repRange digit 1 2]), chr '%'])]]

/-- The totalPatterns list of the OCR route's extractInvoiceData. -/
def totalPatterns : List Re := [
  cat [alts [liti "total", cat [liti "grand", star wsp, liti "total"],
             cat [liti "amount", star wsp, liti "due"],
             cat [liti "final", star wsp, liti "amount"]],
       plus colonWs, opt (chr '$'), star wsp, .grp 1 amt],
  cat [liti "total", plus colonWs, opt (chr '$'), star wsp, .grp 1 cents],
  cat [chr '$', star wsp, .grp 1 cents, alts [wsp, .eol false]]]

/-- The tax for-loop: the first pattern with a truthy capture decides and
breaks, recording a percent capture as taxRate and otherwise, when the parse
is positive, the comma-stripped value as tax; returns (tax, taxRate). -/
def taxLoop (pats : List Re) (text : String) : Option String × Option String :=
  match pats with
  | [] => (none, none)
  | p :: rest =>
    match jsMatchCap1 p text with
    | none => taxLoop rest text
    | some v =>
      if v.data.contains '%' then (none, some v)
      else
        let amount := stripCommas v
        if (jsParseFloat amount).gt (.num 0) then (some amount, none)
        else (none, none)

/-- The capture the tax loop acts on: the first tax pattern with a truthy
group-1 capture, in list order. -/
def firstTaxCap (text : String) : Option String :=
  ExtractRoute.firstCap1 taxPatterns text

/-- extractInvoiceData of src/app/api/extract-ocr/route.ts, including the
line item list (attached only when non-empty). -/
def extractInvoiceData (text filename : String) : ExtractionResult :=
  let tx := taxLoop taxPatterns text
  let items := extractLineItems text
  { filename := filename,
    invoiceNumber := (ExtractRoute.firstCap1 invoicePatterns text).map jsTrim,
    date := (ExtractRoute.firstCap1 datePatterns text).map jsTrim,
    vendor := ExtractRoute.vendorLoop vendorPatterns text 2 60,
    subtotal := ExtractRoute.amountLoop subtotalPatterns text,
    tax := tx.1,
    taxRate := tx.2,
    total := ExtractRoute.amountLoop totalPatterns text,
    lineItems := if items.length > 0 then some items else none }

/-! ### Acquisition orchestration

The PDF.js / pdf-parse / tesseract.js calls are external; each is modelled by
an oracle giving the outcome that call would produce for the file's bytes:
the outcome of extractTextFromPDF, of performOCRExtraction, and of the
recognize call on a directly uploaded image. -/

/-- The OCR leg of the fallback: performOCRExtraction's outcome, with short or
empty recognised text rejected, wrapped in the orchestrator's error prefix. -/
def ocrAttempt (ocrText : Except String String) : Except String String :=
  match ocrText with
  | .error e => .error ("Extraction failed: " ++ e)
  | .ok o =>
    if !jsStrTruthy o || (jsTrim o).length < 20 then
      .error "Extraction failed: OCR extraction failed to find readable text"
    else .ok o

/-- extractTextFromPDFWithOCR: return the native text only when it is truthy
and its trimmed length exceeds 50; otherwise (insufficient or failed) fall
through to the OCR attempt. -/
def extractTextFromPDFWithOCR (pdfText ocrText : Except String String) :
    Except String String :=
  let native : Option String :=
    match pdfText with
    | .ok t => if jsStrTruthy t && (jsTrim t).length > 50 then some t else none
    | .error _ => none
  match native with
  | some t => .ok t
  | none => ocrAttempt ocrText

/-- extractTextFromImageWithOCR over the recognize-call oracle. -/
def extractTextFromImageWithOCR (imageText : Except String String) :
    Except String String :=
  match imageText with
  | .error e => .error ("Image OCR failed: " ++ e)
  | .ok t =>
    if !jsStrTruthy t || !jsStrTruthy (jsTrim t) then
      .error "Image OCR failed: OCR could not extract any readable text from image"
    else .ok (jsTrim t)

/-- An uploaded file for the OCR route: request metadata plus the oracles for
the three external text sources. -/
structure OcrFile where
  name : String
  type : String
  size : Nat
  pdfText : Except String String
  ocrText : Except String String
  imageText : Except String String

/-- The image-extension filename test of the POST handler. -/
def imageExtRe : Re :=
  cat [chr '.', .grp 1 (alts [lit "png", lit "jpg", lit "jpeg", lit "gif",
    lit "bmp", lit "webp"]), .eol false]

/-- Contiguous occurrence of a needle in a character list. -/
def infixOf (needle : List Char) : List Char → Bool
  | [] => needle.isEmpty
  | c :: rest => needle.isPrefixOf (c :: rest) || infixOf needle rest

/-- Substring containment, for the includes calls. -/
def jsIncludes (hay needle : String) : Bool :=
  infixOf needle.data hay.data

/-- Per-file processing of the OCR POST handler: type and size gates, then
acquisition, extraction, and the confidence note. -/
def processOcrFile (f : OcrFile) : ExtractionResult :=
  let fileName := jsOr f.name "Unknown file"
  let isImage := jsStartsWith f.type "image/" || jsTest imageExtRe (jsToLower fileName)
  let isPDF := f.type = "application/pdf" || jsEndsWith (jsToLower fileName) ".pdf"
  if !isPDF && !isImage then
    { filename := fileName, error := some "File must be a PDF or image (PNG, JPG, etc.)" }
  else if f.size > 10 * 1024 * 1024 then
    { filename := jsOr f.name "Unknown file",
      error := some "File too large for OCR processing (max 10MB)" }
  else
    match if isImage then extractTextFromImageWithOCR f.imageText
          else extractTextFromPDFWithOCR f.pdfText f.ocrText with
    | .error e => { filename := jsOr f.name "Unknown file", error := some e }
    | .ok text =>
      let d := extractInvoiceData text fileName
      let base := d.notes.getD ""
      let conf :=
        if text.length > 1000 then " [OCR: High confidence]"
        else if text.length > 100 then " [OCR: Medium confidence]"
        else " [OCR: Low confidence]"
      { d with notes := some (base ++ conf) }

/-- Batch metadata of the OCR POST response. -/
structure OcrMeta where
  totalFiles : Nat
  successfulExtractions : Nat
  ocrProcessed : Nat
deriving DecidableEq

/-- The sequential push loop over files. -/
def pushLoop (files : List OcrFile) (acc : List ExtractionResult) :
    List ExtractionResult :=
  match files with
  | [] => acc
  | f :: rest => pushLoop rest (acc ++ [processOcrFile f])

/-- The OCR POST handler after form decoding: batch gates, per-file loop,
response assembly. -/
def ocrPOST (files : List OcrFile) :
    Except String (List ExtractionResult × OcrMeta) :=
  if files.length = 0 then .error "No files provided"
  else if files.length > 3 then
    .error "Maximum 3 files allowed for OCR processing (performance limit)"
  else
    let extractions := pushLoop files []
    .ok (extractions,
      { totalFiles := files.length,
        successfulExtractions := (extractions.filter
          (fun e => e.error = none)).length,
        ocrProcessed := (extractions.filter
          (fun e => match e.notes with
            | some n => jsIncludes n "OCR:"
            | none => false)).length })

end OcrRoute

/-! ## The enhanced route (src/app/api/extract-enhanced/route.ts and
src/lib/extraction-patterns.ts) -/

namespace EnhancedRoute
open Pat

/-- A transcribed RegExp literal together with its g-flag. -/
structure CompiledRe where
  re : Re
  global : Bool := false

/-- One named pattern table of extraction-patterns.ts; the dynamic Record of
field names is carried as an ordered association list. -/
structure ExtractionPattern where
  name : String
  description : String
  patterns : List (String × List CompiledRe)
  premium : Bool := false

/-- keyword head of invoice-number patterns -/
def invKw : Re := alts [
  cat [liti "invoice", star wsp, opt numTag],
  cat [liti "inv", star wsp, opt numTag],
  cat [liti "bill", star wsp, opt numTag]]

/-- keyword head of date patterns -/
def dateKw : Re := alts [liti "date", cat [liti "invoice", star wsp, liti "date"],
  liti "issued", cat [liti "bill", star wsp, liti "date"]]

/-- keyword head of vendor patterns -/
def vendKw : Re := alts [liti "from", liti "vendor", liti "company",
  cat [liti "bill", star wsp, liti "to"], cat [liti "sold", star wsp, liti "by"]]

/-- the Standard Invoice table -/
def stdInvoice : ExtractionPattern := {
  name := "Standard Invoice",
  description := "Basic invoice data extraction",
  patterns := [
    ("invoiceNumber", [
      ⟨cat [invKw, star wsp, opt (chr ':'), star wsp, .grp 1 (plus invChar)], false⟩,
      ⟨cat [alts [.bol true, wsp],
            .grp 1 (cat [repRange upperChar 2 3, opt (chr '-'), repMin digit 4])], false⟩,
      ⟨cat [chr '#', star wsp, .grp 1 (repMin invChar 3)], false⟩]),
    ("date", [
      ⟨cat [dateKw, star wsp, opt (chr ':'), star wsp, .grp 1 dmy], false⟩,
      ⟨cat [dateKw, star wsp, opt (chr ':'), star wsp, .grp 1 ymd], false⟩,
      ⟨cat [dateKw, star wsp, opt (chr ':'), star wsp, .grp 1 wordDate], false⟩]),
    ("vendor", [
      ⟨cat [vendKw, star wsp, opt (chr ':'), star wsp, .grp 1 (lazyPlus vendorChar),
            alts [chr '\n', .eol false, repMin wsp 2]], false⟩,
      ⟨cat [.bol true, .grp 1 (repMin vendorChar 3), star wsp,
            alts [chr '\n', chr '\r']], false⟩]),
    ("total", [
      ⟨cat [alts [liti "total", cat [liti "grand", star wsp, liti "total"],
                  cat [liti "amount", star wsp, liti "due"],
                  cat [liti "balance", star wsp, liti "due"],
                  cat [liti "final", star wsp, liti "amount"]],
            star wsp, opt (chr ':'), star wsp, opt (chr '$'), star wsp,
            .grp 1 amt], false⟩,
      ⟨cat [chr '$', star wsp, .grp 1 cents, alts [wsp, .eol false]], false⟩])] }

/-- the Receipt table (premium) -/
def receiptPattern : ExtractionPattern := {
  name := "Receipt",
  description := "Retail receipt extraction",
  premium := true,
  patterns := [
    ("merchant", [
      ⟨cat [.bol true, .grp 1 (plus (.cls (fun c => ('A' ≤ c && c ≤ 'Z') ||
            isJsWs c || c = '&'))), .eol true], false⟩,
      ⟨cat [alts [liti "merchant", liti "store", liti "retailer"], star wsp,
            opt (chr ':'), star wsp, .grp 1 (plus vendorChar)], false⟩]),
    ("total", [
      ⟨cat [alts [liti "total", liti "amount", liti "sum"], star wsp, opt (chr ':'),
            star wsp, opt (chr '$'), star wsp, .grp 1 amt], false⟩,
      ⟨cat [chr '$', star wsp, .grp 1 cents, star wsp, .eol true], false⟩]),
    ("date", [⟨.grp 1 dmy, false⟩, ⟨.grp 1 ymd, false⟩]),
    ("items", [
      ⟨cat [.bol true, .grp 1 (lazyPlus dot), plus wsp, opt (chr '$'),
            .grp 2 amt, .eol true], true⟩])] }

/-- the Purchase Order table (premium) -/
def poPattern : ExtractionPattern := {
  name := "Purchase Order",
  description := "Business purchase order extraction",
  premium := true,
  patterns := [
    ("poNumber", [
      ⟨cat [alts [cat [liti "purchase", star wsp, liti "order"],
                  cat [liti "po", star wsp, numTag]],
            star wsp, opt (chr ':'), star wsp, .grp 1 (plus invChar)], false⟩,
      ⟨cat [alts [.bol true, wsp],
            .grp 1 (cat [lit "PO", opt (chr '-'), plus invCharCS])], false⟩]),
    ("vendor", [
      ⟨cat [alts [liti "vendor", liti "supplier", liti "from"], star wsp,
            opt (chr ':'), star wsp, .grp 1 (lazyPlus vendorChar),
            alts [chr '\n', .eol false, repMin wsp 2]], false⟩]),
    ("total", [
      ⟨cat [alts [liti "total", cat [liti "grand", star wsp, liti "total"],
                  liti "amount"],
            star wsp, opt (chr ':'), star wsp, opt (chr '$'), star wsp,
            .grp 1 amt], false⟩]),
    ("deliveryDate", [
      ⟨cat [alts [cat [liti "delivery", star wsp, liti "date"],
                  cat [liti "ship", star wsp, liti "date"], liti "expected"],
            star wsp, opt (chr ':'), star wsp, .grp 1 dmy], false⟩])] }

/-- the Contract table (premium) -/
def contractPattern : ExtractionPattern := {
  name := "Contract",
  description := "Legal contract extraction",
  premium := true,
  patterns := [
    ("contractNumber", [
      ⟨cat [alts [cat [liti "contract", star wsp, numTag],
                  cat [liti "agreement", star wsp, numTag]],
            star wsp, opt (chr ':'), star wsp, .grp 1 (plus invChar)], false⟩]),
    ("parties", [
      ⟨cat [alts [liti "between", cat [liti "party", star wsp, liti "a"],
                  cat [liti "first", star wsp, liti "party"]],
            star wsp, opt (chr ':'), star wsp, .grp 1 (lazyPlus vendorChar),
            alts [chr '\n', liti "and", .eol false]], false⟩,
      ⟨cat [alts [liti "and", cat [liti "party", star wsp, liti "b"],
                  cat [liti "second", star wsp, liti "party"]],
            star wsp, opt (chr ':'), star wsp, .grp 1 (lazyPlus vendorChar),
            alts [chr '\n', .eol false]], false⟩]),
    ("effectiveDate", [
      ⟨cat [alts [cat [liti "effective", star wsp, liti "date"],
                  cat [liti "start", star wsp, liti "date"], liti "commenced"],
            star wsp, opt (chr ':'), star wsp, .grp 1 dmy], false⟩]),
    ("amount", [
      ⟨cat [alts [liti "amount", liti "value", liti "consideration"],
            star wsp, opt (chr ':'), star wsp, opt (chr '$'), star wsp,
            .grp 1 amt], false⟩])] }

/-- the Bank Statement table (premium) -/
def bankPattern : ExtractionPattern := {
  name := "Bank Statement",
  description := "Bank statement transaction extraction",
  premium := true,
  patterns := [
    ("accountNumber", [
      ⟨cat [liti "account", star wsp, numTag, star wsp, opt (chr ':'), star wsp,
            .grp 1 (plus invChar)], false⟩]),
    ("balance", [
      ⟨cat [alts [liti "balance", cat [liti "available", star wsp, liti "balance"]],
            star wsp, opt (chr ':'), star wsp, opt (chr '$'), star wsp,
            .grp 1 amt], false⟩]),
    ("statementDate", [
      ⟨cat [alts [cat [liti "statement", star wsp, liti "date"],
                  cat [liti "as", star wsp, liti "of"]],
            star wsp, opt (chr ':'), star wsp, .grp 1 dmy], false⟩]),
    ("transactions", [
      ⟨cat [.grp 1 dmy, plus wsp, .grp 2 (lazyPlus dot), plus wsp,
            .grp 3 (cat [opt (.cls (fun c => c = '-' || c = '+')), opt (chr '$'),
              amt])], true⟩])] }

/-- the extractionPatterns array -/
def extractionPatterns : List ExtractionPattern :=
  [stdInvoice, receiptPattern, poPattern, contractPattern, bankPattern]

/-- getAvailablePatterns: premium tables only for premium callers. -/
def getAvailablePatterns (isPremium : Bool) : List ExtractionPattern :=
  extractionPatterns.filter (fun p => !p.premium || isPremium)

/-- The per-file record built by the enhanced route: the dynamic fields of the
Record plus the metadata properties assigned afterwards. -/
structure EnhancedResult where
  filename : String
  fields : List (String × String) := []
  documentType : Option String := none
  extractionPattern : Option String := none
  error : Option String := none
deriving DecidableEq

/-- Lookup of a dynamic field. -/
def fieldsGet (r : List (String × String)) (k : String) : Option String :=
  (r.find? (fun p => p.1 = k)).map (fun p => p.2)

/-- Assignment of a dynamic field (overwriting). -/
def fieldsSet (r : List (String × String)) (k v : String) :
    List (String × String) :=
  if r.any (fun p => p.1 = k) then
    r.map (fun p => if p.1 = k then (k, v) else p)
  else r ++ [(k, v)]

/-- The match-and-first-capture guard for a possibly global pattern: for a
global pattern the match array holds the full match texts, so the guard
reads the second match. -/
def cMatchCap1 (c : CompiledRe) (text : String) : Option String :=
  if c.global then
    match jsMatchGlobal c.re text with
    | none => none
    | some l =>
      match l.get? 1 with
      | none => none
      | some v => if v = "" then none else some v
  else jsMatchCap1 c.re text

/-- field names routed through the positive-amount branch -/
def isAmountField (f : String) : Bool := f = "total" || f = "amount" || f = "balance"

/-- field names routed through the name-length branch -/
def isNameField (f : String) : Bool := f = "vendor" || f = "merchant" || f = "parties"

/-- The inner regex loop of extractDataWithPatterns: first pattern whose
capture passes its field-kind check wins. -/
def regexLoop (field : String) (regexes : List CompiledRe) (text : String) :
    Option String :=
  match regexes with
  | [] => none
  | c :: rest =>
    match cMatchCap1 c text with
    | none => regexLoop field rest text
    | some v =>
      if isAmountField field then
        let cleanAmount := stripCommas v
        if (jsParseFloat cleanAmount).gt (.num 0) then some cleanAmount
        else regexLoop field rest text
      else if isNameField field then
        let cleanValue := ExtractRoute.cleanVendor v
        if cleanValue.length > 2 && cleanValue.length < 100 then some cleanValue
        else regexLoop field rest text
      else some (jsTrim v)

/-- The field loop of extractDataWithPatterns: skip fields already truthy. -/
def fieldsLoop (entries : List (String × List CompiledRe)) (text : String)
    (acc : List (String × String)) : List (String × String) :=
  match entries with
  | [] => acc
  | (field, regexes) :: rest =>
    let already :=
      match fieldsGet acc field with
      | some v => jsStrTruthy v
      | none => false
    if already then fieldsLoop rest text acc
    else
      match regexLoop field regexes text with
      | some v => fieldsLoop rest text (fieldsSet acc field v)
      | none => fieldsLoop rest text acc

/-- The outer pattern-table loop of extractDataWithPatterns. -/
def patternsLoop (pats : List ExtractionPattern) (text : String)
    (acc : List (String × String)) : List (String × String) :=
  match pats with
  | [] => acc
  | p :: rest => patternsLoop rest text (fieldsLoop p.patterns text acc)

/-- extractDataWithPatterns of src/lib/extraction-patterns.ts. -/
def extractDataWithPatterns (text : String) (pats : List ExtractionPattern)
    (filename : String) : EnhancedResult :=
  { filename := filename, fields := patternsLoop pats text [] }

/-- detectDocumentType of src/app/api/extract-enhanced/route.ts. -/
def detectDocumentType (text : String) : String :=
  let lower := jsToLower text
  if OcrRoute.jsIncludes lower "purchase order" ||
      OcrRoute.jsIncludes lower "po number" then "Purchase Order"
  else if OcrRoute.jsIncludes lower "contract" ||
      OcrRoute.jsIncludes lower "agreement" then "Contract"
  else if OcrRoute.jsIncludes lower "bank statement" ||
      OcrRoute.jsIncludes lower "account balance" then "Bank Statement"
  else if OcrRoute.jsIncludes lower "receipt" &&
      !(OcrRoute.jsIncludes lower "invoice") then "Receipt"
  else "Standard Invoice"

/-- enhancedExtractData: classify, select the table (falling back to Standard
Invoice), extract, and attach the metadata; a missing table is caught and
becomes an error-only record. -/
def enhancedExtractData (text filename : String) (isPremium : Bool) :
    EnhancedResult :=
  let documentType := detectDocumentType text
  let avail := getAvailablePatterns isPremium
  match (avail.find? (fun p => p.name = documentType)).orElse
      (fun _ => avail.find? (fun p => p.name = "Standard Invoice")) with
  | none =>
    { filename := filename,
      error := some "Extraction failed: No extraction pattern available" }
  | some pattern =>
    let r := extractDataWithPatterns text [pattern] filename
    { r with documentType := some documentType,
             extractionPattern := some pattern.name }

/-- An uploaded file for the enhanced route. -/
structure EnhFile where
  name : String
  type : String
  size : Nat
  content : Except String String

/-- The per-file size ceiling by plan. -/
def maxFileSizeFor (isPremium : Bool) : Nat :=
  if isPremium then 50 * 1024 * 1024 else 2 * 1024 * 1024

/-- The batch file-count ceiling by plan. -/
def maxFilesFor (isPremium : Bool) : Nat := if isPremium then 50 else 5

/-- The plan name string. -/
def planName (isPremium : Bool) : String := if isPremium then "premium" else "free"

/-- Per-file processing of the enhanced POST handler. -/
def processEnhFile (isPremium : Bool) (f : EnhFile) : EnhancedResult :=
  let fname := jsOr f.name "Unknown file"
  if f.type ≠ "application/pdf" && !(jsEndsWith (jsToLower f.name) ".pdf") then
    { filename := fname, error := some ("Error: " ++ fname ++ " is not a PDF file") }
  else if f.size > maxFileSizeFor isPremium then
    { filename := fname,
      error := some ("Error: " ++ fname ++ " is too large (max " ++
        toString (maxFileSizeFor isPremium / 1024 / 1024) ++ "MB for " ++
        planName isPremium ++ " plan)") }
  else
    match f.content with
    | .ok text => enhancedExtractData text fname isPremium
    | .error e =>
      { filename := fname,
        error := some ("Error processing " ++ fname ++ ": " ++ e) }

/-- The sequential push loop over files. -/
def enhPushLoop (isPremium : Bool) (files : List EnhFile)
    (acc : List EnhancedResult) : List EnhancedResult :=
  match files with
  | [] => acc
  | f :: rest => enhPushLoop isPremium rest (acc ++ [processEnhFile isPremium f])

/-- The enhanced POST handler after form decoding: batch gates, per-file loop,
and the succeeded count of the response metadata. -/
def enhancedPOST (isPremium : Bool) (files : List EnhFile) :
    Except String (List EnhancedResult × Nat) :=
  if files.length = 0 then .error "No files provided"
  else if files.length > maxFilesFor isPremium then
    .error ("Maximum " ++ toString (maxFilesFor isPremium) ++
      " files allowed for " ++ planName isPremium ++
      " plan. Upgrade to process more files.")
  else
    let extractions := enhPushLoop isPremium files []
    .ok (extractions, (extractions.filter (fun e => e.error = none)).length)

end EnhancedRoute


/-! ## Concrete inputs used by the claim theorems and witnesses -/

/-- Scenario A text of the specification. -/
def scenarioAText : String := "Invoice #INV-2024-001\nDate: 03/15/2024\nTotal: $1,250.00"

/-- Scenario D text of the specification. -/
def scenarioDText : String :=
  "Description Qty Price Amount\nWidget A 3 10.00 30.00\nSubtotal: 30.00"

/-- The row the line-item parser actually produces on scenario D. -/
def scenarioDItem : LineItem :=
  { description := "Widget A 3 10.00", amount := some (.num 30) }

/-- Scenario D with one more well-formed row after the Subtotal line. -/
def scenarioDExtended : String := scenarioDText ++ "\nWidgetItemZZ 40.00"

/-- A header followed by one two-column row. -/
def c3Text : String := "Description Qty Price Amount\nWidgetItemXX 30.00"

/-- The item parsed from c3Text. -/
def c3Item : LineItem := { description := "WidgetItemXX", amount := some (.num 30) }

/-- A header followed by twenty-one well-formed rows. -/
def c4Text : String := "Description Qty Price Amount\n" ++
  String.intercalate "\n" (List.replicate 21 "WidgetItemXX 30.00")

/-- A header followed by a four-column row with quantity zero. -/
def c6Text : String := "Description Qty Price Amount\nWidgetItemX 0 10.00 30.00"

/-- The item parsed from c6Text: quantity zero is kept. -/
def c6Item : LineItem :=
  { description := "WidgetItemX", quantity := some (.num 0),
    unitPrice := some (.num 10), amount := some (.num 30) }

/-- A non-PDF upload for the basic route. -/
def c1FileA : ExtractRoute.PdfFile :=
  { name := "notes.txt", type := "text/plain", size := 5,
    content := .error "PDF parsing failed: bad" }

/-- A PDF upload whose decoding fails. -/
def c1FileB : ExtractRoute.PdfFile :=
  { name := "b.pdf", type := "application/pdf", size := 5,
    content := .error "PDF parsing failed: bad" }

/-- A well-typed small PDF upload for the enhanced route. -/
def c8GoodFile : EnhancedRoute.EnhFile :=
  { name := "a.pdf", type := "application/pdf", size := 100, content := .ok "x" }

/-- A non-PDF upload for the enhanced route. -/
def c8BadType : EnhancedRoute.EnhFile :=
  { name := "picture.bmp", type := "image/bmp", size := 100, content := .ok "x" }

/-- A file violating every media-type rule of the OCR route. -/
def c9OcrBad : OcrRoute.OcrFile :=
  { name := "archive.zip", type := "application/zip", size := 100,
    pdfText := .ok "x", ocrText := .ok "y", imageText := .ok "z" }

/-! ## Claim theorems -/

/-- The basic route's push loop is the map of its per-file processor. -/
theorem ExtractRoute.pushLoop_eq (files : List ExtractRoute.PdfFile)
    (acc : List ExtractionResult) :
    ExtractRoute.pushLoop files acc = acc ++ files.map ExtractRoute.processFile := by
  induction files generalizing acc with
  | nil => simp [ExtractRoute.pushLoop]
  | cons f rest ih => simp [ExtractRoute.pushLoop, ih]

/-- C1: for every accepted batch (non-empty, at most ten files), the basic
route returns one result per input file, the result at position i being the
processing of the file at position i, and the reported succeeded count is the
number of results without an error field. -/
theorem C1_batch_results_parallel (files : List ExtractRoute.PdfFile)
    (hne : files ≠ []) (hle : files.length ≤ 10) :
    ∃ res meta, ExtractRoute.extractPOST files = .ok (res, meta) ∧
      res.length = files.length ∧
      (∀ i : Nat, res[i]? = (files[i]?).map ExtractRoute.processFile) ∧
      meta.successfulExtractions =
        (res.filter (fun e => e.error = none)).length := by
  have h0 : ¬ files.length = 0 := by
    simpa [List.length_eq_zero] using hne
  have h10 : ¬ files.length > 10 := by omega
  have hpost : ExtractRoute.extractPOST files =
      .ok (files.map ExtractRoute.processFile,
        { totalFiles := files.length, processedFiles := files.length,
          successfulExtractions := ((files.map ExtractRoute.processFile).filter
            (fun e => e.error = none)).length }) := by
    unfold ExtractRoute.extractPOST
    simp [h0, h10, ExtractRoute.pushLoop_eq]
  exact ⟨_, _, hpost, by simp, fun i => by simp [List.getElem?_map], rfl⟩

/-- Witness for C1 at a concrete two-file batch. -/
theorem C1_witness :
    ([c1FileA, c1FileB] ≠ ([] : List ExtractRoute.PdfFile)) ∧
    ∃ res meta, ExtractRoute.extractPOST [c1FileA, c1FileB] = .ok (res, meta) ∧
      res.length = 2 ∧
      (∀ i : Nat, res[i]? = ([c1FileA, c1FileB][i]?).map ExtractRoute.processFile) ∧
      meta.successfulExtractions =
        (res.filter (fun e => e.error = none)).length := by
  refine ⟨by simp, ?_⟩
  simpa using C1_batch_results_parallel [c1FileA, c1FileB] (by simp) (by simp)

/-- C2: on the scenario A text, the basic field extractor finds invoice number
INV-2024-001, date 03/15/2024 and total 1250.00 (thousands separator
stripped), with no error. -/
theorem C2_scenarioA :
    (ExtractRoute.extractInvoiceData scenarioAText "invoice.pdf").invoiceNumber =
        some "INV-2024-001" ∧
    (ExtractRoute.extractInvoiceData scenarioAText "invoice.pdf").date =
        some "03/15/2024" ∧
    (ExtractRoute.extractInvoiceData scenarioAText "invoice.pdf").total =
        some "1250.00" ∧
    (ExtractRoute.extractInvoiceData scenarioAText "invoice.pdf").error = none := by
  refine ⟨by decide, by decide, by decide, rfl⟩

/-- Any predicate holding for every valid row candidate and for the
accumulator holds for every item the line loop returns. -/
theorem OcrRoute.lineLoop_forall (P : LineItem → Prop)
    (hrow : ∀ line it, OcrRoute.rowMatch OcrRoute.tablePatterns line = some (some it) →
      OcrRoute.itemValid it = true → P it) :
    ∀ lines inSec acc cnt, (∀ it ∈ acc, P it) →
      ∀ it ∈ OcrRoute.lineLoop lines inSec acc cnt, P it := by
  intro lines
  induction lines with
  | nil => intro inSec acc cnt hacc it hit; exact hacc it (by simpa [OcrRoute.lineLoop] using hit)
  | cons line rest ih =>
    intro inSec acc cnt hacc it hit
    rw [OcrRoute.lineLoop] at hit
    by_cases hsec : inSec
    · simp only [hsec] at hit
      by_cases hstop : jsTest OcrRoute.stopRe line
      · simp only [hstop] at hit
        simp at hit
        exact hacc it hit
      · simp only [hstop] at hit
        simp only [Bool.not_true, if_false] at hit
        rcases hm : OcrRoute.rowMatch OcrRoute.tablePatterns line with _ | ⟨_ | cand⟩ <;>
          rw [hm] at hit
        · exact ih _ _ _ hacc it hit
        · exact ih _ _ _ hacc it hit
        · by_cases hv : OcrRoute.itemValid cand
          · simp only [hv, if_true] at hit
            refine ih _ _ _ ?_ it hit
            intro x hx
            rcases List.mem_append.mp hx with h | h
            · exact hacc x h
            · simp at h; subst h; exact hrow line x hm hv
          · simp only [hv, if_false] at hit
            exact ih _ _ _ hacc it hit
    · simp only [hsec] at hit
      by_cases hh : OcrRoute.tableHeaders.any (fun h => jsTest h line)
      · simp only [hh, if_true] at hit
        exact ih _ _ _ hacc it hit
      · simp only [hh, if_false] at hit
        exact ih _ _ _ hacc it hit

/-- C3: every line item the parser emits has a description longer than five
characters and an amount that is present and strictly positive under the
JavaScript comparison; rows failing the guard are dropped, never emitted
with a zero amount. -/
theorem C3_items_amount_positive (text : String) (it : LineItem)
    (hit : it ∈ OcrRoute.extractLineItems text) :
    it.description.length > 5 ∧
      ∃ a, it.amount = some a ∧ a.gt (.num 0) = true := by
  refine OcrRoute.lineLoop_forall
    (fun x => x.description.length > 5 ∧ ∃ a, x.amount = some a ∧ a.gt (.num 0) = true)
    ?_ _ false [] 0 (by simp) it (by simpa [OcrRoute.extractLineItems] using hit)
  intro line x _ hv
  unfold OcrRoute.itemValid at hv
  rcases hx : x.amount with _ | a
  · rw [hx] at hv; simp at hv
  · rw [hx] at hv
    simp only [Bool.and_eq_true, decide_eq_true_eq] at hv
    exact ⟨hv.1.2, a, rfl, hv.2.2⟩

/-- Witness for C3 on a concrete two-line table. -/
theorem C3_witness :
    (c3Item ∈ OcrRoute.extractLineItems c3Text) ∧
    (c3Item.description.length > 5 ∧
      ∃ a, c3Item.amount = some a ∧ a.gt (.num 0) = true) :=
  ⟨by decide, C3_items_amount_positive c3Text c3Item (by decide)⟩

set_option maxRecDepth 10000 in
/-- C4: the 20-item cap is not enforced by the code: on a header followed by
twenty-one well-formed rows the parser returns twenty-one items, because the
cap check only breaks the inner pattern loop while the outer line loop keeps
scanning (the claim and the code's own cap check say parsing should stop at
twenty). -/
theorem C4_cap_not_enforced : (OcrRoute.extractLineItems c4Text).length = 21 := by
  decide

/-- C5 counterexample: on the scenario D text the parser does not produce the
four-field row the claim states; the four-column shape requires at least ten
description characters, and the eight-character Widget A cannot satisfy it. -/
theorem C5_counterexample :
    OcrRoute.extractLineItems scenarioDText ≠
      [{ description := "Widget A", quantity := some (.num 3),
         unitPrice := some (.num 10), amount := some (.num 30) }] := by decide

/-- C5 (amended): scenario D yields exactly one LineItem, produced by the
two-group fallback shape: description Widget A 3 10.00 with amount 30 and no
quantity or unit price; parsing stops at the Subtotal line, so a further
well-formed row after it contributes nothing. -/
theorem C5_amended_fallback_row :
    OcrRoute.extractLineItems scenarioDText = [scenarioDItem] ∧
    OcrRoute.extractLineItems scenarioDExtended = [scenarioDItem] :=
  ⟨by decide, by decide⟩

/-- C6 counterexample: the parser emits an item whose quantity is zero, not
strictly positive, because the push guard never inspects the quantity. -/
theorem C6_counterexample :
    OcrRoute.extractLineItems c6Text = [c6Item] ∧
    (JSNum.num 0).gt (.num 0) = false :=
  ⟨by decide, rfl⟩

/-- Characters consumed by a match all satisfy any bound P of the pattern's
character classes. -/
theorem reMatch_consumed (P : Char → Bool) :
    ∀ (fuel : Nat) (re : Re) (prev : Option Char) (s : List Char) (caps : Caps),
      re.clsSub P → ∀ r ∈ reMatch fuel re prev s caps, ∀ c ∈ s.take r.1, P c = true := by
  intro fuel
  induction fuel with
  | zero => intro re prev s caps _ r hr; simp [reMatch] at hr
  | succ fuel ih =>
    intro re prev s caps hre r hr
    cases re with
    | eps => simp [reMatch] at hr; subst hr; simp
    | bol m =>
      simp only [reMatch] at hr
      rcases prev with _ | c <;> simp at hr
      · subst hr; simp
      · rcases hr with ⟨-, hr⟩; subst hr; simp
    | eol m =>
      simp only [reMatch] at hr
      rcases s with _ | ⟨c, rest⟩ <;> simp at hr
      · subst hr; simp
      · rcases hr with ⟨-, hr⟩; subst hr; simp
    | cls q =>
      simp only [reMatch] at hr
      rcases s with _ | ⟨c, rest⟩
      · simp at hr
      · by_cases hq : q c
        · simp [hq] at hr
          subst hr
          intro c' hc'
          simp at hc'
          subst hc'
          exact hre _ hq
        · simp [hq] at hr
    | seq a b =>
      simp only [reMatch] at hr
      simp only [List.mem_flatMap, List.mem_map] at hr
      rcases hr with ⟨ra, hra, rb, hrb, hr⟩
      subst hr
      intro c hc
      simp only [List.take_add, List.mem_append] at hc
      rcases hc with hc | hc
      · exact ih a prev s caps hre.1 ra hra c hc
      · exact ih b ra.2.1 (s.drop ra.1) ra.2.2 hre.2 rb hrb c hc
    | alt a b =>
      simp only [reMatch] at hr
      rcases List.mem_append.mp hr with h | h
      · exact ih a prev s caps hre.1 r h
      · exact ih b prev s caps hre.2 r h
    | grp i rr =>
      simp only [reMatch] at hr
      simp only [List.mem_map] at hr
      rcases hr with ⟨ra, hra, hr⟩
      subst hr
      exact ih rr prev s caps hre ra hra
    | rep rr lo extra lz =>
      simp only [reMatch] at hr
      rcases lo with _ | lo'
      · rcases extra with _ | e'
        · -- unbounded star
          have hiter : ∀ x ∈ (reMatch fuel rr prev s caps).flatMap (fun ra =>
              if ra.1 = 0 then []
              else (reMatch fuel (.rep rr 0 none lz) ra.2.1 (s.drop ra.1) ra.2.2).map
                (fun rb => (ra.1 + rb.1, rb.2.1, rb.2.2))),
              ∀ c ∈ s.take x.1, P c = true := by
            intro x hx
            simp only [List.mem_flatMap] at hx
            rcases hx with ⟨ra, hra, hx⟩
            by_cases h0 : ra.1 = 0
            · simp [h0] at hx
            · simp only [h0, if_false, List.mem_map] at hx
              rcases hx with ⟨rb, hrb, hx⟩
              subst hx
              intro c hc
              simp only [List.take_add, List.mem_append] at hc
              rcases hc with hc | hc
              · exact ih rr prev s caps hre ra hra c hc
              · exact ih (.rep rr 0 none lz) ra.2.1 (s.drop ra.1) ra.2.2 hre rb hrb c hc
          rcases lz with _ | _ <;> simp only [Bool.false_eq_true, if_false, if_true] at hr
          · rcases List.mem_append.mp hr with h | h
            · exact hiter r h
            · simp at h; subst h; simp
          · rcases (List.mem_cons).mp hr with h | h
            · subst h; simp
            · exact hiter r h
        · rcases e' with _ | e''
          · simp at hr; subst hr; simp
          · have hiter : ∀ x ∈ (reMatch fuel rr prev s caps).flatMap (fun ra =>
                if ra.1 = 0 then []
                else (reMatch fuel (.rep rr 0 (some e'') lz) ra.2.1 (s.drop ra.1) ra.2.2).map
                  (fun rb => (ra.1 + rb.1, rb.2.1, rb.2.2))),
                ∀ c ∈ s.take x.1, P c = true := by
              intro x hx
              simp only [List.mem_flatMap] at hx
              rcases hx with ⟨ra, hra, hx⟩
              by_cases h0 : ra.1 = 0
              · simp [h0] at hx
              · simp only [h0, if_false, List.mem_map] at hx
                rcases hx with ⟨rb, hrb, hx⟩
                subst hx
                intro c hc
                simp only [List.take_add, List.mem_append] at hc
                rcases hc with hc | hc
                · exact ih rr prev s caps hre ra hra c hc
                · exact ih (.rep rr 0 (some e'') lz) ra.2.1 (s.drop ra.1) ra.2.2 hre rb hrb c hc
            rcases lz with _ | _ <;> simp only [Bool.false_eq_true, if_false, if_true] at hr
            · rcases List.mem_append.mp hr with h | h
              · exact hiter r h
              · simp at h; subst h; simp
            · rcases (List.mem_cons).mp hr with h | h
              · subst h; simp
              · exact hiter r h
      · simp only [List.mem_flatMap, List.mem_map] at hr
        rcases hr with ⟨ra, hra, rb, hrb, hr⟩
        subst hr
        intro c hc
        simp only [List.take_add, List.mem_append] at hc
        rcases hc with hc | hc
        · exact ih rr prev s caps hre ra hra c hc
        · exact ih (.rep rr lo' extra lz) ra.2.1 (s.drop ra.1) ra.2.2 hre rb hrb c hc

/-- Captures recorded for group g during a match satisfy any bound P of that
group's character classes, provided the incoming environment does. -/
theorem reMatch_caps (g : Nat) (P : Char → Bool) :
    ∀ (fuel : Nat) (re : Re) (prev : Option Char) (s : List Char) (caps : Caps),
      re.grpSub g P → capsOK g P caps →
      ∀ r ∈ reMatch fuel re prev s caps, capsOK g P r.2.2 := by
  intro fuel
  induction fuel with
  | zero => intro re prev s caps _ _ r hr; simp [reMatch] at hr
  | succ fuel ih =>
    intro re prev s caps hre hcaps r hr
    cases re with
    | eps => simp [reMatch] at hr; subst hr; exact hcaps
    | bol m =>
      simp only [reMatch] at hr
      rcases prev with _ | c <;> simp at hr
      · subst hr; exact hcaps
      · rcases hr with ⟨-, hr⟩; subst hr; exact hcaps
    | eol m =>
      simp only [reMatch] at hr
      rcases s with _ | ⟨c, rest⟩ <;> simp at hr
      · subst hr; exact hcaps
      · rcases hr with ⟨-, hr⟩; subst hr; exact hcaps
    | cls q =>
      simp only [reMatch] at hr
      rcases s with _ | ⟨c, rest⟩
      · simp at hr
      · by_cases hq : q c
        · simp [hq] at hr; subst hr; exact hcaps
        · simp [hq] at hr
    | seq a b =>
      simp only [reMatch, List.mem_flatMap, List.mem_map] at hr
      rcases hr with ⟨ra, hra, rb, hrb, hr⟩
      subst hr
      exact ih b ra.2.1 (s.drop ra.1) ra.2.2 hre.2
        (ih a prev s caps hre.1 hcaps ra hra) rb hrb
    | alt a b =>
      simp only [reMatch] at hr
      rcases List.mem_append.mp hr with h | h
      · exact ih a prev s caps hre.1 hcaps r h
      · exact ih b prev s caps hre.2 hcaps r h
    | grp i rr =>
      simp only [reMatch, List.mem_map] at hr
      rcases hr with ⟨ra, hra, hr⟩
      subst hr
      intro l hl
      by_cases hgi : g = i
      · subst hgi
        simp [List.lookup] at hl
        subst hl
        exact reMatch_consumed P fuel rr prev s caps (hre.1 rfl) ra hra
      · have : (g == i) = false := by simpa using hgi
        simp [List.lookup, this] at hl
        exact ih rr prev s caps hre.2 hcaps ra hra l hl
    | rep rr lo extra lz =>
      simp only [reMatch] at hr
      rcases lo with _ | lo'
      · rcases extra with _ | e'
        · have hiter : ∀ x ∈ (reMatch fuel rr prev s caps).flatMap (fun ra =>
              if ra.1 = 0 then []
              else (reMatch fuel (.rep rr 0 none lz) ra.2.1 (s.drop ra.1) ra.2.2).map
                (fun rb => (ra.1 + rb.1, rb.2.1, rb.2.2))),
              capsOK g P x.2.2 := by
            intro x hx
            simp only [List.mem_flatMap] at hx
            rcases hx with ⟨ra, hra, hx⟩
            by_cases h0 : ra.1 = 0
            · simp [h0] at hx
            · simp only [h0, if_false, List.mem_map] at hx
              rcases hx with ⟨rb, hrb, hx⟩
              subst hx
              exact ih (.rep rr 0 none lz) ra.2.1 (s.drop ra.1) ra.2.2 hre
                (ih rr prev s caps hre hcaps ra hra) rb hrb
          rcases lz with _ | _ <;> simp only [Bool.false_eq_true, if_false, if_true] at hr
          · rcases List.mem_append.mp hr with h | h
            · exact hiter r h
            · simp at h; subst h; exact hcaps
          · rcases (List.mem_cons).mp hr with h | h
            · subst h; exact hcaps
            · exact hiter r h
        · rcases e' with _ | e''
          · simp at hr; subst hr; exact hcaps
          · have hiter : ∀ x ∈ (reMatch fuel rr prev s caps).flatMap (fun ra =>
                if ra.1 = 0 then []
                else (reMatch fuel (.rep rr 0 (some e'') lz) ra.2.1 (s.drop ra.1) ra.2.2).map
                  (fun rb => (ra.1 + rb.1, rb.2.1, rb.2.2))),
                capsOK g P x.2.2 := by
              intro x hx
              simp only [List.mem_flatMap] at hx
              rcases hx with ⟨ra, hra, hx⟩
              by_cases h0 : ra.1 = 0
              · simp [h0] at hx
              · simp only [h0, if_false, List.mem_map] at hx
                rcases hx with ⟨rb, hrb, hx⟩
                subst hx
                exact ih (.rep rr 0 (some e'') lz) ra.2.1 (s.drop ra.1) ra.2.2 hre
                  (ih rr prev s caps hre hcaps ra hra) rb hrb
            rcases lz with _ | _ <;> simp only [Bool.false_eq_true, if_false, if_true] at hr
            · rcases List.mem_append.mp hr with h | h
              · exact hiter r h
              · simp at h; subst h; exact hcaps
            · rcases (List.mem_cons).mp hr with h | h
              · subst h; exact hcaps
              · exact hiter r h
      · simp only [List.mem_flatMap, List.mem_map] at hr
        rcases hr with ⟨ra, hra, rb, hrb, hr⟩
        subst hr
        exact ih (.rep rr lo' extra lz) ra.2.1 (s.drop ra.1) ra.2.2 hre
          (ih rr prev s caps hre hcaps ra hra) rb hrb

/-- Lift of the capture bound through the left-to-right search. -/
theorem reSearch_caps (g : Nat) (P : Char → Bool) (fuel : Nat) (re : Re)
    (hre : re.grpSub g P) :
    ∀ (prev : Option Char) (s : List Char) (hit : SearchHit),
      reSearch fuel re prev s = some hit → capsOK g P hit.caps := by
  intro prev s
  induction s generalizing prev with
  | nil =>
    intro hit h
    simp only [reSearch] at h
    rcases hm : reMatch fuel re prev [] [] with _ | ⟨r0, rs⟩ <;> rw [hm] at h
    · simp at h
    · simp only [List.head?_cons, Option.some.injEq] at h
      subst h
      exact reMatch_caps g P fuel re prev [] [] hre
        (fun l hl => by simp [List.lookup] at hl) r0 (hm ▸ List.mem_cons_self r0 rs)
  | cons c rest ih =>
    intro hit h
    simp only [reSearch] at h
    rcases hm : reMatch fuel re prev (c :: rest) [] with _ | ⟨r0, rs⟩ <;> rw [hm] at h
    · simp only [List.head?_nil] at h
      exact ih (some c) hit h
    · simp only [List.head?_cons, Option.some.injEq] at h
      subst h
      exact reMatch_caps g P fuel re prev (c :: rest) [] hre
        (fun l hl => by simp [List.lookup] at hl) r0 (hm ▸ List.mem_cons_self r0 rs)

/-- Lift of the capture bound to whole-string matching. -/
theorem jsMatchCaps_capsOK (g : Nat) (P : Char → Bool) (re : Re) (text : String)
    (hre : re.grpSub g P) (caps : Caps) (h : jsMatchCaps re text = some caps) :
    capsOK g P caps := by
  unfold jsMatchCaps at h
  rcases hs : reSearch (reFuel re text.data) re none text.data with _ | hit <;>
    rw [hs] at h
  · simp at h
  · simp only [Option.map_some', Option.some.injEq] at h
    subst h
    exact reSearch_caps g P _ re hre none text.data hit hs

/-- The value of an unsigned decimal literal is non-negative. -/
theorem decValue_false_nonneg (intD fracD : List Char) (e : Int) :
    0 ≤ decValue false intD fracD e := by
  unfold decValue
  simp only [Bool.false_eq_true, if_false]
  split <;> (rw [Rat.mkRat_eq_div]; positivity)

/-- parseFloat of a string of digits, commas and dots is NaN or a
non-negative finite value: the class admits no sign and no Infinity. -/
theorem jsParseFloat_amt_nonneg (s : String)
    (h : ∀ c ∈ s.data, amtChar c = true) :
    jsParseFloat s = .nan ∨ ∃ q : ℚ, jsParseFloat s = .num q ∧ 0 ≤ q := by
  rcases hs : s.data with _ | ⟨c, rest⟩
  · left
    simp [jsParseFloat, hs, parseUnsigned]
  · have hc := h c (by simp [hs])
    have hws2 : isJsWs c = false := by
      by_contra hcon
      have hws3 : isJsWs c = true := by simpa using hcon
      simp only [isJsWs, Bool.or_eq_true, decide_eq_true_eq] at hws3
      rcases hws3 with ((((((h1|h1)|h1)|h1)|h1)|h1)|h1) <;>
        (subst h1; simp [amtChar, isDigitChar] at hc)
    have hminus : c ≠ '-' := by
      intro hcon; subst hcon; simp [amtChar, isDigitChar] at hc
    have hplus : c ≠ '+' := by
      intro hcon; subst hcon; simp [amtChar, isDigitChar] at hc
    have hI : c ≠ 'I' := by
      intro hcon; subst hcon; simp [amtChar, isDigitChar] at hc
    have hinf : ¬ ((c :: rest).take 8 = "Infinity".data) := by
      intro hcon
      have hhead := congrArg List.head? hcon
      have h2 : ("Infinity".data).head? = some 'I' := rfl
      rw [h2] at hhead
      simp at hhead
      exact hI hhead
    rcases hpu : parseUnsigned (c :: rest) with _ | su
    · left
      simp [jsParseFloat, hs, List.dropWhile, hws2, hminus, hplus, hpu]
    · rcases su with _ | ⟨intD, fracD, e⟩
      · exfalso
        unfold parseUnsigned at hpu
        rw [if_neg hinf] at hpu
        simp only [] at hpu
        split at hpu <;> simp at hpu
      · right
        refine ⟨decValue false intD fracD e, ?_, decValue_false_nonneg intD fracD e⟩
        simp [jsParseFloat, hs, List.dropWhile, hws2, hminus, hplus, hpu]

/-- Group 3 of each row shape captures only digits, commas and dots. -/
theorem tablePatterns_grpSub3 :
    ∀ p ∈ OcrRoute.tablePatterns, p.grpSub 3 amtChar := by
  intro p hp
  simp only [OcrRoute.tablePatterns, List.mem_cons, List.not_mem_nil, or_false] at hp
  rcases hp with h | h | h <;> subst h <;>
    simp only [Pat.cat, Pat.alts, Pat.plus, Pat.star, Pat.opt, Pat.chr, Pat.amt,
      Pat.cents, Pat.qtyNum, Pat.digit, Pat.digitComma, Pat.dot, Pat.wsp,
      Pat.repRange, Pat.repExact, Pat.repMin, List.foldr, Re.grpSub, Re.clsSub,
      true_implies, false_implies] <;>
    refine ⟨?_, ?_⟩ <;>
    repeat'
      first
      | exact trivial
      | refine ⟨?_, ?_⟩
      | (intro hfalse; exact absurd hfalse (by decide))
      | (intro c hcc;
         simp only [amtChar, isDigitChar, Bool.or_eq_true, decide_eq_true_eq] at hcc ⊢;
         tauto)

/-- Unfolding of the inner pattern loop: a produced candidate comes from the
first matching pattern of the list. -/
theorem OcrRoute.rowMatch_spec (pats : List Re) (line : String) (cand : Option LineItem)
    (h : OcrRoute.rowMatch pats line = some cand) :
    ∃ p ∈ pats, ∃ caps, jsMatchCaps p line = some caps ∧
      OcrRoute.itemOfMatch (OcrRoute.patGroups p) caps = cand := by
  induction pats with
  | nil => simp [OcrRoute.rowMatch] at h
  | cons p rest ih =>
    rw [OcrRoute.rowMatch] at h
    rcases hm : jsMatchCaps p line with _ | caps <;> rw [hm] at h
    · obtain ⟨p', hp', caps, hc, hi⟩ := ih h
      exact ⟨p', List.mem_cons_of_mem p hp', caps, hc, hi⟩
    · simp only [Option.some.injEq] at h
      exact ⟨p, List.mem_cons_self p rest, caps, hm, h⟩

/-- A candidate's unit price, when assigned, is the parse of the comma-stripped
group-3 capture. -/
theorem OcrRoute.itemOfMatch_unitPrice (nG : Nat) (caps : Caps) (x : LineItem)
    (h : OcrRoute.itemOfMatch nG caps = some x) (q : ℚ)
    (hq : x.unitPrice = some (.num q)) :
    jsParseFloat (stripCommas ((capGet caps 3).getD "")) = .num q := by
  unfold OcrRoute.itemOfMatch at h
  split at h
  · simp only [Option.some.injEq] at h
    subst h
    simpa using hq
  · split at h
    · simp only [Option.some.injEq] at h
      subst h
      simp at hq
    · simp at h

/-- C6 (amended): the parser validates neither quantity nor unit price, and it
can emit an item with quantity zero (see the counterexample) or NaN fields;
what does hold is that a unit price that is a finite number is never negative,
because the price capture admits only digits, commas and dots. -/
theorem C6_amended_unitPrice_nonneg (text : String) (it : LineItem) (q : ℚ)
    (hit : it ∈ OcrRoute.extractLineItems text)
    (hup : it.unitPrice = some (.num q)) : 0 ≤ q := by
  refine OcrRoute.lineLoop_forall
    (fun x => ∀ q : ℚ, x.unitPrice = some (.num q) → 0 ≤ q)
    ?_ _ false [] 0 (by simp) it (by simpa [OcrRoute.extractLineItems] using hit) q hup
  intro line x hrow _ q' hq'
  obtain ⟨p, hp, caps, hmatch, hitem⟩ := OcrRoute.rowMatch_spec _ _ _ hrow
  have hparse := OcrRoute.itemOfMatch_unitPrice _ _ _ hitem q' hq'
  have hcapsOK := jsMatchCaps_capsOK 3 amtChar p line (tablePatterns_grpSub3 p hp)
    caps hmatch
  rcases hget : capGet caps 3 with _ | str
  · rw [hget] at hparse
    simp only [Option.getD_none] at hparse
    have hnan : jsParseFloat (stripCommas "") = JSNum.nan := by decide
    rw [hnan] at hparse
    exact absurd hparse (by simp)
  · rw [hget] at hparse
    simp only [Option.getD_some] at hparse
    have hchars : ∀ c ∈ (stripCommas str).data, amtChar c = true := by
      intro c hc
      unfold stripCommas at hc
      simp only [String.data] at hc
      have hc2 : c ∈ str.data := List.mem_of_mem_filter hc
      unfold capGet at hget
      rcases hlk : caps.lookup 3 with _ | l <;> rw [hlk] at hget
      · simp at hget
      · simp only [Option.map_some', Option.some.injEq] at hget
        subst hget
        exact hcapsOK l hlk c hc2
    rcases jsParseFloat_amt_nonneg (stripCommas str) hchars with hnan | ⟨q2, hq2, hq2n⟩
    · rw [hnan] at hparse
      exact absurd hparse (by simp)
    · rw [hq2] at hparse
      have : q2 = q' := by simpa using hparse
      exact this ▸ hq2n

/-- Witness for C6 on a concrete row with unit price ten. -/
theorem C6_witness :
    (c6Item ∈ OcrRoute.extractLineItems c6Text) ∧
    c6Item.unitPrice = some (.num 10) ∧ (0 : ℚ) ≤ 10 :=
  ⟨by decide, rfl, C6_amended_unitPrice_nonneg c6Text c6Item 10 (by decide) rfl⟩

/-- C7: when native text-layer extraction succeeds but the trimmed text has at
most fifty characters, the orchestrator treats it as insufficient and proceeds
to the OCR attempt instead of returning the sparse native text. -/
theorem C7_insufficient_native_falls_to_ocr (pdf ocr : Except String String)
    (t : String) (hpdf : pdf = .ok t) (hlen : (jsTrim t).length ≤ 50) :
    OcrRoute.extractTextFromPDFWithOCR pdf ocr = OcrRoute.ocrAttempt ocr := by
  subst hpdf
  unfold OcrRoute.extractTextFromPDFWithOCR
  have hgt : ¬ ((jsTrim t).length > 50) := by omega
  simp [hgt]

/-- Witness for C7: ten characters of noise fall through to the OCR leg. -/
theorem C7_witness :
    ((jsTrim "noise12345").length ≤ 50) ∧
    OcrRoute.extractTextFromPDFWithOCR (.ok "noise12345")
        (.ok "recognized text with more than twenty characters") =
      OcrRoute.ocrAttempt (.ok "recognized text with more than twenty characters") :=
  ⟨by decide,
   C7_insufficient_native_falls_to_ocr _ _ "noise12345" rfl (by decide)⟩

/-- The enhanced route's push loop is the map of its per-file processor. -/
theorem EnhancedRoute.enhPushLoop_eq (isPremium : Bool)
    (files : List EnhancedRoute.EnhFile) (acc : List EnhancedRoute.EnhancedResult) :
    EnhancedRoute.enhPushLoop isPremium files acc =
      acc ++ files.map (EnhancedRoute.processEnhFile isPremium) := by
  induction files generalizing acc with
  | nil => simp [EnhancedRoute.enhPushLoop]
  | cons f rest ih => simp [EnhancedRoute.enhPushLoop, ih]

/-- C8: a batch whose file count exceeds the tier ceiling fails outright with
the single batch-level error and no per-file results; an accepted batch
processes every file; a file violating the type or size rule becomes a
per-file error result whose value does not depend on the file's bytes (so
acquisition is never invoked), and in the OCR route a file that is neither a
PDF nor an image does the same. -/
theorem C8_gate_behaviour :
    (∀ (isPremium : Bool) (files : List EnhancedRoute.EnhFile),
      files.length > EnhancedRoute.maxFilesFor isPremium →
      EnhancedRoute.enhancedPOST isPremium files =
        .error ("Maximum " ++ toString (EnhancedRoute.maxFilesFor isPremium) ++
          " files allowed for " ++ EnhancedRoute.planName isPremium ++
          " plan. Upgrade to process more files.")) ∧
    (∀ (isPremium : Bool) (files : List EnhancedRoute.EnhFile),
      files ≠ [] → files.length ≤ EnhancedRoute.maxFilesFor isPremium →
      ∃ n, EnhancedRoute.enhancedPOST isPremium files =
        .ok (files.map (EnhancedRoute.processEnhFile isPremium), n)) ∧
    (∀ (isPremium : Bool) (name ty : String) (sz : Nat),
      ((ty ≠ "application/pdf" ∧ jsEndsWith (jsToLower name) ".pdf" = false) ∨
        sz > EnhancedRoute.maxFileSizeFor isPremium) →
      ∃ msg, ∀ content, EnhancedRoute.processEnhFile isPremium ⟨name, ty, sz, content⟩ =
        { filename := jsOr name "Unknown file", error := some msg }) ∧
    (∀ (name ty : String) (sz : Nat),
      ((ty = "application/pdf" ∨
        jsEndsWith (jsToLower (jsOr name "Unknown file")) ".pdf" = true ∨
        jsStartsWith ty "image/" = true ∨
        jsTest OcrRoute.imageExtRe (jsToLower (jsOr name "Unknown file")) = true) →
        False) →
      ∀ pdfT ocrT imgT,
        OcrRoute.processOcrFile ⟨name, ty, sz, pdfT, ocrT, imgT⟩ =
          { filename := jsOr name "Unknown file",
            error := some "File must be a PDF or image (PNG, JPG, etc.)" }) := by
  refine ⟨?_, ?_, ?_, ?_⟩
  · intro isPremium files hover
    have h0 : ¬ files.length = 0 := by
      have : 0 < EnhancedRoute.maxFilesFor isPremium := by
        cases isPremium <;> simp [EnhancedRoute.maxFilesFor]
      omega
    unfold EnhancedRoute.enhancedPOST
    simp [h0, hover]
  · intro isPremium files hne hle
    have h0 : ¬ files.length = 0 := by
      simpa [List.length_eq_zero] using hne
    have hover : ¬ files.length > EnhancedRoute.maxFilesFor isPremium := by omega
    refine ⟨((files.map (EnhancedRoute.processEnhFile isPremium)).filter
      (fun e => e.error = none)).length, ?_⟩
    unfold EnhancedRoute.enhancedPOST
    simp [h0, hover, EnhancedRoute.enhPushLoop_eq]
  · intro isPremium name ty sz hviol
    by_cases hty : ty ≠ "application/pdf" ∧ jsEndsWith (jsToLower name) ".pdf" = false
    · refine ⟨"Error: " ++ jsOr name "Unknown file" ++ " is not a PDF file", ?_⟩
      intro content
      unfold EnhancedRoute.processEnhFile
      have : (decide ¬ty = "application/pdf" && !jsEndsWith (jsToLower name) ".pdf") = true := by
        simp [hty.1, hty.2]
      simp only [this, if_true]
    · have hsz : sz > EnhancedRoute.maxFileSizeFor isPremium := by tauto
      refine ⟨"Error: " ++ jsOr name "Unknown file" ++ " is too large (max " ++
        toString (EnhancedRoute.maxFileSizeFor isPremium / 1024 / 1024) ++ "MB for " ++
        EnhancedRoute.planName isPremium ++ " plan)", ?_⟩
      intro content
      unfold EnhancedRoute.processEnhFile
      rcases Decidable.em (ty = "application/pdf" ∨
          jsEndsWith (jsToLower name) ".pdf" = true) with hok | hbad
      · have : (decide ¬ty = "application/pdf" && !jsEndsWith (jsToLower name) ".pdf") = false := by
          rcases hok with h | h <;> simp [h]
        simp only [this, if_false]
        simp [hsz]
      · exfalso
        apply hty
        constructor
        · intro h; exact hbad (Or.inl h)
        · rcases h : jsEndsWith (jsToLower name) ".pdf" with _ | _
          · rfl
          · exact absurd (Or.inr h) hbad
  · intro name ty sz hno pdfT ocrT imgT
    unfold OcrRoute.processOcrFile
    have hImg : (jsStartsWith ty "image/" ||
        jsTest OcrRoute.imageExtRe (jsToLower (jsOr name "Unknown file"))) = false := by
      rcases h1 : jsStartsWith ty "image/" with _ | _
      · rcases h2 : jsTest OcrRoute.imageExtRe (jsToLower (jsOr name "Unknown file")) with _ | _
        · rfl
        · exact absurd (Or.inr (Or.inr (Or.inr h2))) hno
      · exact absurd (Or.inr (Or.inr (Or.inl h1))) hno
    have hPdf : (decide (ty = "application/pdf") ||
        jsEndsWith (jsToLower (jsOr name "Unknown file")) ".pdf") = false := by
      rcases Decidable.em (ty = "application/pdf") with h | h
      · exact absurd (Or.inl h) hno
      · rcases h2 : jsEndsWith (jsToLower (jsOr name "Unknown file")) ".pdf" with _ | _
        · simp [h]
        · exact absurd (Or.inr (Or.inl h2)) hno
    simp only [hImg, hPdf]
    simp

/-- Witness for C8: six files against the free-tier ceiling of five fail the
batch; a two-file batch is fully processed; a bmp upload on the enhanced route
errors without reading its bytes; a zip upload on the OCR route errors without
consulting any oracle. -/
theorem C8_witness :
    ((List.replicate 6 c8GoodFile).length > EnhancedRoute.maxFilesFor false) ∧
    (EnhancedRoute.enhancedPOST false (List.replicate 6 c8GoodFile) =
      .error "Maximum 5 files allowed for free plan. Upgrade to process more files.") ∧
    (∃ n, EnhancedRoute.enhancedPOST false [c8GoodFile, c8BadType] =
      .ok ([c8GoodFile, c8BadType].map (EnhancedRoute.processEnhFile false), n)) ∧
    (∃ msg, ∀ content,
      EnhancedRoute.processEnhFile false ⟨"picture.bmp", "image/bmp", 100, content⟩ =
        { filename := jsOr "picture.bmp" "Unknown file", error := some msg }) ∧
    (∀ pdfT ocrT imgT,
      OcrRoute.processOcrFile ⟨"archive.zip", "application/zip", 100, pdfT, ocrT, imgT⟩ =
        { filename := jsOr "archive.zip" "Unknown file",
          error := some "File must be a PDF or image (PNG, JPG, etc.)" }) := by
  refine ⟨by decide, ?_, ?_, ?_, ?_⟩
  · simpa using C8_gate_behaviour.1 false (List.replicate 6 c8GoodFile) (by decide)
  · exact C8_gate_behaviour.2.1 false [c8GoodFile, c8BadType] (by simp) (by decide)
  · exact C8_gate_behaviour.2.2.1 false "picture.bmp" "image/bmp" 100
      (Or.inl ⟨by decide, by decide⟩)
  · exact C8_gate_behaviour.2.2.2 "archive.zip" "application/zip" 100
      (by intro h; revert h; decide) 

/-- The enhanced extractor itself never produces an error record: the Standard
Invoice table is available on every plan, so the pattern lookup cannot fail. -/
theorem EnhancedRoute.enhancedExtractData_error_none (text filename : String)
    (isPremium : Bool) :
    (EnhancedRoute.enhancedExtractData text filename isPremium).error = none := by
  unfold EnhancedRoute.enhancedExtractData
  have hfind : ∃ p, ((EnhancedRoute.getAvailablePatterns isPremium).find?
      (fun p => p.name = EnhancedRoute.detectDocumentType text)).orElse
      (fun _ => (EnhancedRoute.getAvailablePatterns isPremium).find?
        (fun p => p.name = "Standard Invoice")) = some p := by
    rcases h1 : (EnhancedRoute.getAvailablePatterns isPremium).find?
        (fun p => p.name = EnhancedRoute.detectDocumentType text) with _ | p
    · cases isPremium
      · exact ⟨EnhancedRoute.stdInvoice, by rw [h1]; rfl⟩
      · exact ⟨EnhancedRoute.stdInvoice, by rw [h1]; rfl⟩
    · exact ⟨p, by rw [h1]; rfl⟩
  obtain ⟨p, hp⟩ := hfind
  simp only [hp]
  simp [EnhancedRoute.extractDataWithPatterns]

/-- The OCR route's per-file processing yields either a bare error record or a
record with no error. -/
theorem OcrRoute.processOcrFile_cases (f : OcrRoute.OcrFile) :
    (∃ msg, OcrRoute.processOcrFile f =
      { filename := jsOr f.name "Unknown file", error := some msg }) ∨
    (OcrRoute.processOcrFile f).error = none := by
  unfold OcrRoute.processOcrFile
  dsimp only
  split
  · exact Or.inl ⟨_, rfl⟩
  · split
    · exact Or.inl ⟨_, rfl⟩
    · split
      · exact Or.inl ⟨_, rfl⟩
      · right
        simp [OcrRoute.extractInvoiceData]

/-- C9: in each route's per-file processing, a result carrying an error holds
no extracted data beyond the filename: every data field is absent (for the
enhanced route, the dynamic field list is empty and no metadata is set). -/
theorem C9_error_excludes_data :
    (∀ (f : ExtractRoute.PdfFile) (e : String),
      (ExtractRoute.processFile f).error = some e →
      (ExtractRoute.processFile f).invoiceNumber = none ∧
      (ExtractRoute.processFile f).date = none ∧
      (ExtractRoute.processFile f).vendor = none ∧
      (ExtractRoute.processFile f).subtotal = none ∧
      (ExtractRoute.processFile f).tax = none ∧
      (ExtractRoute.processFile f).taxRate = none ∧
      (ExtractRoute.processFile f).total = none ∧
      (ExtractRoute.processFile f).lineItems = none ∧
      (ExtractRoute.processFile f).notes = none) ∧
    (∀ (f : OcrRoute.OcrFile) (e : String),
      (OcrRoute.processOcrFile f).error = some e →
      (OcrRoute.processOcrFile f).invoiceNumber = none ∧
      (OcrRoute.processOcrFile f).date = none ∧
      (OcrRoute.processOcrFile f).vendor = none ∧
      (OcrRoute.processOcrFile f).subtotal = none ∧
      (OcrRoute.processOcrFile f).tax = none ∧
      (OcrRoute.processOcrFile f).taxRate = none ∧
      (OcrRoute.processOcrFile f).total = none ∧
      (OcrRoute.processOcrFile f).lineItems = none ∧
      (OcrRoute.processOcrFile f).notes = none) ∧
    (∀ (isPremium : Bool) (f : EnhancedRoute.EnhFile) (e : String),
      (EnhancedRoute.processEnhFile isPremium f).error = some e →
      (EnhancedRoute.processEnhFile isPremium f).fields = [] ∧
      (EnhancedRoute.processEnhFile isPremium f).documentType = none ∧
      (EnhancedRoute.processEnhFile isPremium f).extractionPattern = none) := by
  refine ⟨?_, ?_, ?_⟩
  · intro f e
    unfold ExtractRoute.processFile
    split
    · intro _; simp
    · split
      · intro _; simp
      · split
        · intro herr
          exfalso
          simp [ExtractRoute.extractInvoiceData] at herr
        · intro _; simp
  · intro f e herr
    rcases OcrRoute.processOcrFile_cases f with ⟨msg, hm⟩ | hnone
    · rw [hm]; simp
    · rw [herr] at hnone; simp at hnone
  · intro isPremium f e
    unfold EnhancedRoute.processEnhFile
    split
    · intro _; simp
    · split
      · intro _; simp
      · split
        · intro herr
          exact absurd (EnhancedRoute.enhancedExtractData_error_none _ _ _ ▸ herr)
            (by simp)
        · intro _; simp

/-- Witness for C9: one erroring file per route. -/
theorem C9_witness :
    ((ExtractRoute.processFile c1FileA).error =
      some "Error: notes.txt is not a PDF file" ∧
      (ExtractRoute.processFile c1FileA).invoiceNumber = none ∧
      (ExtractRoute.processFile c1FileA).lineItems = none) ∧
    ((OcrRoute.processOcrFile c9OcrBad).error =
      some "File must be a PDF or image (PNG, JPG, etc.)" ∧
      (OcrRoute.processOcrFile c9OcrBad).total = none) ∧
    ((EnhancedRoute.processEnhFile false c8BadType).error =
      some "Error: picture.bmp is not a PDF file" ∧
      (EnhancedRoute.processEnhFile false c8BadType).fields = []) := by
  refine ⟨⟨by decide, ?_, ?_⟩, ⟨by decide, ?_⟩, ⟨by decide, ?_⟩⟩
  · exact (C9_error_excludes_data.1 c1FileA
      "Error: notes.txt is not a PDF file" (by decide)).1
  · exact (C9_error_excludes_data.1 c1FileA
      "Error: notes.txt is not a PDF file" (by decide)).2.2.2.2.2.2.2.1
  · exact (C9_error_excludes_data.2.1 c9OcrBad
      "File must be a PDF or image (PNG, JPG, etc.)" (by decide)).2.2.2.2.2.2.1
  · exact (C9_error_excludes_data.2.2 false c8BadType
      "Error: picture.bmp is not a PDF file" (by decide)).1

/-- The tax loop acts exactly on the first truthy capture of the pattern
list, then stops. -/
theorem OcrRoute.taxLoop_eq (pats : List Re) (text : String) :
    OcrRoute.taxLoop pats text =
      match ExtractRoute.firstCap1 pats text with
      | none => (none, none)
      | some v =>
        if v.data.contains '%' then (none, some v)
        else if (jsParseFloat (stripCommas v)).gt (.num 0) then
          (some (stripCommas v), none)
        else (none, none) := by
  induction pats with
  | nil => simp [OcrRoute.taxLoop, ExtractRoute.firstCap1]
  | cons p rest ih =>
    rw [OcrRoute.taxLoop, ExtractRoute.firstCap1]
    rcases jsMatchCap1 p text with _ | v
    · exact ih
    · rfl

/-- C10: the tax extractor acts on the first tax pattern with a truthy
capture: a capture containing a percent sign is recorded as taxRate, and
otherwise, when it parses positive, as tax; the two fields are never both
set on the same result. -/
theorem C10_tax_rate_exclusive (text fname : String) :
    ((OcrRoute.extractInvoiceData text fname).tax = none ∨
     (OcrRoute.extractInvoiceData text fname).taxRate = none) ∧
    (∀ v, OcrRoute.firstTaxCap text = some v →
      (v.data.contains '%' = true →
        (OcrRoute.extractInvoiceData text fname).taxRate = some v ∧
        (OcrRoute.extractInvoiceData text fname).tax = none) ∧
      (v.data.contains '%' = false →
        (jsParseFloat (stripCommas v)).gt (.num 0) = true →
        (OcrRoute.extractInvoiceData text fname).tax = some (stripCommas v) ∧
        (OcrRoute.extractInvoiceData text fname).taxRate = none)) := by
  have htax : (OcrRoute.extractInvoiceData text fname).tax =
      (OcrRoute.taxLoop OcrRoute.taxPatterns text).1 := rfl
  have htr : (OcrRoute.extractInvoiceData text fname).taxRate =
      (OcrRoute.taxLoop OcrRoute.taxPatterns text).2 := rfl
  rw [htax, htr, OcrRoute.taxLoop_eq]
  have hcap : OcrRoute.firstTaxCap text =
      ExtractRoute.firstCap1 OcrRoute.taxPatterns text := rfl
  rcases hv : ExtractRoute.firstCap1 OcrRoute.taxPatterns text with _ | v
  · refine ⟨Or.inl rfl, ?_⟩
    intro v hv2
    rw [hcap, hv] at hv2
    exact absurd hv2 (by simp)
  · by_cases hpc : v.data.contains '%' = true
    · have hm : '%' ∈ v.data := by simpa using hpc
      refine ⟨by simp [hm], ?_⟩
      intro w hw
      rw [hcap, hv] at hw
      obtain rfl : v = w := Option.some.inj hw
      refine ⟨fun _ => by simp [hm], fun hnc => ?_⟩
      rw [hpc] at hnc
      exact absurd hnc (by simp)
    · have hm : '%' ∉ v.data := by simpa using hpc
      by_cases hpos : (jsParseFloat (stripCommas v)).gt (.num 0) = true
      · refine ⟨?_, ?_⟩
        · right
          simp [hm, hpos]
        · intro w hw
          rw [hcap, hv] at hw
          obtain rfl : v = w := Option.some.inj hw
          refine ⟨fun hc => absurd hc (by simpa using hm), fun _ _ => ?_⟩
          simp [hm, hpos]
      · refine ⟨?_, ?_⟩
        · left
          simp [hm, hpos]
        · intro w hw
          rw [hcap, hv] at hw
          obtain rfl : v = w := Option.some.inj hw
          refine ⟨fun hc => absurd hc (by simpa using hm), fun _ hp => absurd hp hpos⟩

/-- Witness for C10: a percent capture lands in taxRate and leaves tax unset. -/
theorem C10_witness :
    (OcrRoute.firstTaxCap "Tax Rate: 5%" = some "5%") ∧
    ("5%".data.contains '%' = true) ∧
    (OcrRoute.extractInvoiceData "Tax Rate: 5%" "f.pdf").taxRate = some "5%" ∧
    (OcrRoute.extractInvoiceData "Tax Rate: 5%" "f.pdf").tax = none := by
  refine ⟨by decide, by decide, ?_⟩
  exact ((C10_tax_rate_exclusive "Tax Rate: 5%" "f.pdf").2 "5%" (by decide)).1 (by decide)

end PdfExtract
